import Mathlib

/-!
# server.go: three HTTP handlers and a graceful-shutdown lifecycle

A shallow embedding of `src/server.go`.

* Go strings are Lean strings (sequences of Unicode scalar values), so the
  embedding covers the Go strings that are valid UTF-8.  All delimiters the
  program looks for are ASCII, hence positions counted in characters and
  positions counted in bytes cut a string at the same places.
* `http.ResponseWriter` is a record of the header map, the status line once
  it has been sent, and the list of payloads handed to `Write`, in order.
* The standard-library routines the handlers call (`fmt.Fprintf`,
  `strconv.Quote`, `net.SplitHostPort`, `net.ParseIP`, `Header.Get`,
  `Header.Set`) are transcribed from the Go standard library; what the
  program obtains from its platform (`os.Hostname`, the Unicode tables behind
  `strconv.IsPrint`) is a field of `Env`.
* `main` is a transition system over the events that unblock it: a signal on
  `errChan`, the return of `srv.ListenAndServe`, the return of `srv.Shutdown`.
-/

namespace Server

/-! ## Errors and the environment -/

/-- Go `error` values the program can observe.  `http.ErrServerClosed` is a
sentinel compared by identity; every other error is kept as its message. -/
inductive GoError where
  | ErrServerClosed
  | other (msg : String)
deriving DecidableEq, Repr

/-- The `Error()` method. -/
def GoError.Error : GoError → String
  | .ErrServerClosed => "http: Server closed"
  | .other msg => msg

/-- What the program takes from its platform rather than from its own code. -/
structure Env where
  /-- Outcome of the host-name lookup performed by `os.Hostname`. -/
  hostnameLookup : Except GoError String
  /-- The table search `strconv.IsPrint` performs for runes above U+00FF
  (`isPrint16`, `isNotPrint16`, `isPrint32`, `isNotPrint32`). -/
  isPrintTable : Char → Bool

/-- Go `os.Hostname()`: the name and a nil error, or the empty name and the
error of the failed lookup. -/
def os_Hostname (env : Env) : String × Option GoError :=
  match env.hostnameLookup with
  | .ok name => (name, none)
  | .error e => ("", some e)

/-! ## strconv: quoting -/

/-- The double-quote character. -/
def dquote : Char := Char.ofNat 34

/-- Go `strconv.lowerhex`. -/
def lowerhex : List Char := "0123456789abcdef".data

/-- Indexing `lowerhex[n]`; every call site masks `n` to four bits. -/
def hexDigit (n : Nat) : Char := lowerhex.getD n '0'

/-- Go `strconv.IsPrint`: the Latin-1 fast path is explicit, wider runes go
through the tables. -/
def IsPrint (tbl : Char → Bool) (r : Char) : Bool :=
  if r.toNat ≤ 0xFF then
    if 0x20 ≤ r.toNat ∧ r.toNat ≤ 0x7E then true
    else if 0xA1 ≤ r.toNat ∧ r.toNat ≤ 0xFF then r.toNat != 0xAD
    else false
  else tbl r

/-- Go `utf8.ValidRune`. -/
def ValidRune (n : Nat) : Bool :=
  if n < 0xD800 then true
  else if 0xDFFF < n ∧ n ≤ 0x10FFFF then true
  else false

/-- The loops `for s := 12; s >= 0; s -= 4` and `for s := 28; ...` of Go
`strconv.appendEscapedRune`: the digit `lowerhex[r>>uint(s)&0xF]` for each of
the shifts. -/
def hexDigits (n : Nat) (shifts : List Nat) : List Char :=
  shifts.map fun s => hexDigit (n >>> s &&& 0xF)

/-- The `switch r` at the end of Go `strconv.appendEscapedRune`: the escape
of a rune that is not copied verbatim.  An invalid rune falls through to the
four-digit case as U+FFFD. -/
def escapeSwitch (r : Char) : List Char :=
  if r = '\x07' then ['\\', 'a']
  else if r = '\x08' then ['\\', 'b']
  else if r = '\x0c' then ['\\', 'f']
  else if r = '\n' then ['\\', 'n']
  else if r = '\r' then ['\\', 'r']
  else if r = '\t' then ['\\', 't']
  else if r = '\x0b' then ['\\', 'v']
  else if r.toNat < 0x20 ∨ r.toNat = 0x7F then
    ['\\', 'x', hexDigit ((r.toNat % 256) >>> 4), hexDigit ((r.toNat % 256) &&& 0xF)]
  else if ValidRune r.toNat = false then '\\' :: 'u' :: hexDigits 0xFFFD [12, 8, 4, 0]
  else if r.toNat < 0x10000 then '\\' :: 'u' :: hexDigits r.toNat [12, 8, 4, 0]
  else '\\' :: 'U' :: hexDigits r.toNat [28, 24, 20, 16, 12, 8, 4, 0]

/-- Go `strconv.appendEscapedRune(buf, r, quote, ASCIIonly, graphicOnly)`,
as the characters appended to `buf`.  Both callers below pass
`graphicOnly = false`, so that disjunct is left out. -/
def appendEscapedRune (tbl : Char → Bool) (r : Char) (quote : Char) (ASCIIonly : Bool) :
    List Char :=
  if r = quote ∨ r = '\\' then ['\\', r]
  else if ASCIIonly then
    if r.toNat < 0x80 ∧ IsPrint tbl r = true then [r] else escapeSwitch r
  else if IsPrint tbl r then [r]
  else escapeSwitch r

/-- Go `strconv.appendQuotedWith(buf, s, quote, ASCIIonly, false)` on a valid
UTF-8 string: every rune decodes with its own width, so the branch for a
stray byte (`width == 1 && r == utf8.RuneError`) is never taken. -/
def appendQuotedWith (tbl : Char → Bool) (s : List Char) (quote : Char) (ASCIIonly : Bool) :
    List Char :=
  quote :: ((s.map fun r => appendEscapedRune tbl r quote ASCIIonly).flatten ++ [quote])

/-- Go `strconv.Quote`. -/
def Quote (tbl : Char → Bool) (s : String) : String :=
  ⟨appendQuotedWith tbl s.data dquote false⟩

/-- Go `strconv.QuoteToASCII`. -/
def QuoteToASCII (tbl : Char → Bool) (s : String) : String :=
  ⟨appendQuotedWith tbl s.data dquote true⟩

/-! ## fmt: the formatting directives the program uses

Arguments are strings; an `error` argument is passed as its `Error()` text,
which is what the verbs `s` and `v` print for it.  The directives covered are
`%s`, `%v`, `%q`, `%%`, each optionally with the `+` flag; the program uses
no other. -/

/-- Go `(*pp).printArg` for a string operand: `fmtS` for `s` and `v`, `fmtQ`
for `q` (ASCII-only under the `+` flag), the bad-verb marker otherwise. -/
def printArg (tbl : Char → Bool) (plus : Bool) (verb : Char) (arg : String) : List Char :=
  if verb = 's' ∨ verb = 'v' then arg.data
  else if verb = 'q' then
    (if plus then QuoteToASCII tbl arg else Quote tbl arg).data
  else '%' :: '!' :: verb :: ("(string=".data ++ arg.data ++ [')'])

/-- The operands left over when the format is exhausted, as Go reports them. -/
def extraArgs : List String → List Char
  | [] => []
  | [a] => "string=".data ++ a.data
  | a :: rest => "string=".data ++ a.data ++ ", ".data ++ extraArgs rest

/-- One directive whose verb is `verb`: `%%` consumes no operand, a missing
operand is reported, otherwise the next operand is printed. -/
def directive (tbl : Char → Bool) (plus : Bool) (verb : Char) (args : List String) :
    List Char × List String :=
  if verb = '%' then (['%'], args)
  else
    match args with
    | [] => ('%' :: '!' :: verb :: "(MISSING)".data, [])
    | a :: rest => (printArg tbl plus verb a, rest)

/-- Go `(*pp).doPrintf`: literal text is copied, a directive prints the next
operand. -/
def doPrintf (tbl : Char → Bool) : List Char → List String → List Char
  | [], [] => []
  | [], a :: rest => "%!(EXTRA ".data ++ extraArgs (a :: rest) ++ [')']
  | ['%'], _ => "%!(NOVERB)".data
  | ['%', '+'], _ => "%!(NOVERB)".data
  | '%' :: '+' :: verb :: rest, args =>
    (directive tbl true verb args).1 ++ doPrintf tbl rest (directive tbl true verb args).2
  | '%' :: verb :: rest, args =>
    (directive tbl false verb args).1 ++ doPrintf tbl rest (directive tbl false verb args).2
  | c :: rest, args => c :: doPrintf tbl rest args

/-- Go `fmt.Sprintf`. -/
def Sprintf (tbl : Char → Bool) (format : String) (args : List String) : String :=
  ⟨doPrintf tbl format.data args⟩

/-! ## net/textproto and net/http: headers, requests, responses -/

/-- Go `http.Header`: a map from canonical field names to their values. -/
abbrev Header := List (String × List String)

/-- Go `textproto.validHeaderFieldByte`: the token characters of RFC 7230. -/
def validHeaderFieldByte (c : Char) : Bool :=
  ('a' ≤ c ∧ c ≤ 'z') || ('A' ≤ c ∧ c ≤ 'Z') || ('0' ≤ c ∧ c ≤ '9') ||
    "!#$%&*+-.^_|~".data.contains c || c = Char.ofNat 39 || c = Char.ofNat 96

/-- The canonicalising loop of Go `textproto.canonicalMIMEHeaderKey`: upper
case for the first letter and for a letter after a dash, lower case for the
others.  `upper` is the loop variable of that name. -/
def canonicalLoop : List Char → Bool → List Char
  | [], _ => []
  | c :: rest, upper =>
    let c1 :=
      if upper ∧ 'a' ≤ c ∧ c ≤ 'z' then Char.ofNat (c.toNat - 32)
      else if ¬ upper ∧ 'A' ≤ c ∧ c ≤ 'Z' then Char.ofNat (c.toNat + 32)
      else c
    c1 :: canonicalLoop rest (c1 = '-')

/-- Go `textproto.CanonicalMIMEHeaderKey`: a key holding a byte that is not a
token character (a space included) is returned unchanged, any other key is
canonicalised. -/
def CanonicalMIMEHeaderKey (s : String) : String :=
  if s.data.all validHeaderFieldByte then ⟨canonicalLoop s.data true⟩ else s

/-- Go `Header.Get`: the first value stored under the canonical form of
`key`, or the empty string. -/
def Header.Get (h : Header) (key : String) : String :=
  match h.lookup (CanonicalMIMEHeaderKey key) with
  | some (v :: _) => v
  | _ => ""

/-- Go `Header.Set`: the entry under the canonical form of `key` becomes the
single value `value`. -/
def Header.Set (h : Header) (key value : String) : Header :=
  (CanonicalMIMEHeaderKey key, [value]) ::
    h.filter fun kv => kv.1 != CanonicalMIMEHeaderKey key

/-- Go `url.URL`, the field the program reads. -/
structure URL where
  Path : String
deriving DecidableEq, Repr

/-- Go `http.Request`, the fields the program and its router read. -/
structure Request where
  Method : String
  URL : URL
  Header : Header
  RemoteAddr : String
deriving DecidableEq, Repr

/-- Go `http.ResponseWriter`.  `status` and `sentHeader` are `none` until the
status line is written; afterwards they hold the code and the header map as
it stood at that moment.  `writes` lists the payloads of the `Write` calls in
order.  Content-type sniffing for a response without a `Content-Type` is not
represented. -/
structure ResponseWriter where
  header : Header
  status : Option Nat
  sentHeader : Option Header
  writes : List String
deriving DecidableEq, Repr

/-- The response writer a handler receives for a new request. -/
def ResponseWriter.fresh : ResponseWriter :=
  { header := [], status := none, sentHeader := none, writes := [] }

/-- Go `WriteHeader(code)`: the first call sends the status line and the
headers; a later call changes nothing. -/
def ResponseWriter.WriteHeader (w : ResponseWriter) (code : Nat) : ResponseWriter :=
  match w.status with
  | some _ => w
  | none => { w with status := some code, sentHeader := some w.header }

/-- Go `Write(b)`: sends status 200 first when no status line has been
written, then appends the payload to the body. -/
def ResponseWriter.Write (w : ResponseWriter) (b : String) : ResponseWriter :=
  let w1 := match w.status with
    | some _ => w
    | none => w.WriteHeader 200
  { w1 with writes := w1.writes ++ [b] }

/-- The response body: the payloads written so far, concatenated. -/
def ResponseWriter.body (w : ResponseWriter) : String :=
  w.writes.foldr (fun b acc => b ++ acc) ""

/-- Go `fmt.Fprintf(w, format, args...)`: one `Write` of the formatted text. -/
def Fprintf (env : Env) (w : ResponseWriter) (format : String) (args : List String) :
    ResponseWriter :=
  w.Write (Sprintf env.isPrintTable format args)

/-- Go `strings.Contains`. -/
def Contains (s substr : String) : Prop := substr.data <:+: s.data

instance (s substr : String) : Decidable (Contains s substr) :=
  inferInstanceAs (Decidable (substr.data <:+: s.data))

/-! ## net: splitting and parsing addresses -/

/-- Go `bytealg.IndexByteString`: position of the first `c`, if any. -/
def IndexByteString : List Char → Char → Option Nat
  | [], _ => none
  | x :: xs, c => if x = c then some 0 else (IndexByteString xs c).map (· + 1)

/-- Go `bytealg.LastIndexByteString`: position of the last `c`, if any. -/
def LastIndexByteString : List Char → Char → Option Nat
  | [], _ => none
  | x :: xs, c =>
    match LastIndexByteString xs c with
    | some i => some (i + 1)
    | none => if x = c then some 0 else none

/-- Go `&net.AddrError{Err: why, Addr: addr}`, kept as its message. -/
def AddrError (addr why : String) : GoError :=
  .other ("address " ++ addr ++ ": " ++ why)

/-- The `addrErr` closure of Go `net.SplitHostPort`: empty host, empty port
and the error. -/
def addrErr (addr why : String) : String × String × Option GoError :=
  ("", "", some (AddrError addr why))

/-- The tail of Go `net.SplitHostPort`, after `host`, `j` and `k` are set:
no stray bracket from `j` resp. `k` on, and the port is what follows the last
colon, at position `i`. -/
def splitTail (hostport : String) (host : List Char) (i j k : Nat) :
    String × String × Option GoError :=
  if (IndexByteString (hostport.data.drop j) '[').isSome then
    addrErr hostport "unexpected '[' in address"
  else if (IndexByteString (hostport.data.drop k) ']').isSome then
    addrErr hostport "unexpected ']' in address"
  else (⟨host⟩, ⟨hostport.data.drop (i + 1)⟩, none)

/-- Go `net.SplitHostPort`: `host:port`, `[host]:port`. -/
def SplitHostPort (hostport : String) : String × String × Option GoError :=
  match LastIndexByteString hostport.data ':' with
  | none => addrErr hostport "missing port in address"
  | some i =>
    if hostport.data.head? = some '[' then
      match IndexByteString hostport.data ']' with
      | none => addrErr hostport "missing ']' in address"
      | some e =>
        if e + 1 = hostport.data.length then
          addrErr hostport "missing port in address"
        else if e + 1 = i then
          splitTail hostport ((hostport.data.take e).drop 1) i 1 (e + 1)
        else if hostport.data.get? (e + 1) = some ':' then
          addrErr hostport "too many colons in address"
        else addrErr hostport "missing port in address"
    else if (IndexByteString (hostport.data.take i) ':').isSome then
      addrErr hostport "too many colons in address"
    else splitTail hostport (hostport.data.take i) i 0 0

/-- The loop of Go `netip.parseIPv4Fields` over the remaining characters.
`prev` is the character before the current one (`none` at position 0), `val`
the octet being read, `digLen` its number of digits, `fields` the octets
already stored (`pos` is their number).  A result of `none` is a parse error. -/
def parseIPv4Loop : List Char → Option Char → Nat → Nat → List Nat → Option (List Nat)
  | [], _, val, _, fields =>
    if fields.length < 3 then none else some (fields ++ [val])
  | c :: cs, prev, val, digLen, fields =>
    if '0' ≤ c ∧ c ≤ '9' then
      if digLen = 1 ∧ val = 0 then none
      else if val * 10 + (c.toNat - 48) > 255 then none
      else parseIPv4Loop cs (some c) (val * 10 + (c.toNat - 48)) (digLen + 1) fields
    else if c = '.' then
      if prev = none ∨ cs.isEmpty ∨ prev = some '.' then none
      else if fields.length = 3 then none
      else parseIPv4Loop cs (some c) 0 0 (fields ++ [val])
    else none

/-- Go `netip.parseIPv4Fields` on the whole of `s`: the four octets. -/
def parseIPv4Fields (s : List Char) : Option (List Nat) :=
  parseIPv4Loop s none 0 0 []

/-- Value of a hexadecimal digit, if `c` is one. -/
def hexValue (c : Char) : Option Nat :=
  if '0' ≤ c ∧ c ≤ '9' then some (c.toNat - 48)
  else if 'a' ≤ c ∧ c ≤ 'f' then some (c.toNat - 97 + 10)
  else if 'A' ≤ c ∧ c ≤ 'F' then some (c.toNat - 65 + 10)
  else none

/-- The inner loop of Go `netip.parseIPv6` reading one group of hexadecimal
digits: `off` digits read so far with value `acc`.  The result is `off`,
`acc` and the unread rest, or `none` for a group of more than four digits. -/
def hexGroup : List Char → Nat → Nat → Option (Nat × Nat × List Char)
  | [], off, acc => some (off, acc, [])
  | c :: cs, off, acc =>
    match hexValue c with
    | none => some (off, acc, c :: cs)
    | some d =>
      if off > 3 then none
      else if acc * 16 + d > 0xFFFF then none
      else hexGroup cs (off + 1) (acc * 16 + d)

/-- Outcome of the main loop of Go `netip.parseIPv6`: the bytes stored, the
position of the ellipsis if there is one, and the unread rest. -/
structure V6State where
  ip : List Nat
  ellipsis : Option Nat
  rest : List Char
deriving DecidableEq, Repr

/-- The main loop of Go `netip.parseIPv6` (`for i < 16`), where `i` is
`ip.length`.  Each round stores two bytes, so eight rounds exhaust it; `n`
counts the rounds left. -/
def parseIPv6Loop : Nat → List Char → List Nat → Option Nat → Option V6State
  | 0, s, ip, ellipsis => some ⟨ip, ellipsis, s⟩
  | n + 1, s, ip, ellipsis =>
    match hexGroup s 0 0 with
    | none => none
    | some (off, acc, s1) =>
      if off = 0 then none
      else if s1.head? = some '.' then
        if ellipsis = none ∧ ip.length ≠ 12 then none
        else if ip.length + 4 > 16 then none
        else
          match parseIPv4Fields s with
          | none => none
          | some fields => some ⟨ip ++ fields, ellipsis, []⟩
      else
        match s1 with
        | [] => some ⟨ip ++ [acc >>> 8, acc % 256], ellipsis, []⟩
        | c :: s2 =>
          if c ≠ ':' then none
          else
            match s2 with
            | [] => none
            | ':' :: s3 =>
              if ellipsis.isSome then none
              else if s3.isEmpty then
                some ⟨ip ++ [acc >>> 8, acc % 256], some (ip.length + 2), []⟩
              else parseIPv6Loop n s3 (ip ++ [acc >>> 8, acc % 256]) (some (ip.length + 2))
            | _ :: _ => parseIPv6Loop n s2 (ip ++ [acc >>> 8, acc % 256]) ellipsis

/-- Go `netip.Addr` as far as `net.ParseIP` looks at it: the sixteen bytes of
`As16` and the zone. -/
structure Addr where
  as16 : List Nat
  zone : List Char
deriving DecidableEq, Repr

/-- Go `netip.parseIPv4` followed by `As16`: the IPv4-mapped form. -/
def parseIPv4 (s : List Char) : Option Addr :=
  match parseIPv4Fields s with
  | none => none
  | some fields => some ⟨[0, 0, 0, 0, 0, 0, 0, 0, 0, 0, 0xFF, 0xFF] ++ fields, []⟩

/-- The part of Go `netip.parseIPv6` after the zone is split off: leading
ellipsis, the main loop, the check for trailing text, and the expansion of
the ellipsis. -/
def parseIPv6Body (s : List Char) (zone : List Char) : Option Addr :=
  match s with
  | [':', ':'] => some ⟨List.replicate 16 0, zone⟩
  | _ =>
    let lead := s.take 2 = [':', ':']
    match parseIPv6Loop 8 (if lead then s.drop 2 else s) [] (if lead then some 0 else none) with
    | none => none
    | some st =>
      if st.rest ≠ [] then none
      else if st.ip.length < 16 then
        match st.ellipsis with
        | none => none
        | some e =>
          some ⟨st.ip.take e ++ List.replicate (16 - st.ip.length) 0 ++ st.ip.drop e, zone⟩
      else if st.ellipsis.isSome then none
      else some ⟨st.ip, zone⟩

/-- Go `netip.parseIPv6`: an optional `%zone` suffix, which must not be
empty, then the address proper. -/
def parseIPv6 (s : List Char) : Option Addr :=
  match IndexByteString s '%' with
  | none => parseIPv6Body s []
  | some i =>
    if (s.drop (i + 1)).isEmpty then none
    else parseIPv6Body (s.take i) (s.drop (i + 1))

/-- The scan of Go `netip.ParseAddr` for the first `.`, `:` or `%`; `s` is
the whole input, `rest` what is still to be scanned. -/
def parseAddrScan (s : List Char) : List Char → Option Addr
  | [] => none
  | c :: rest =>
    if c = '.' then parseIPv4 s
    else if c = ':' then parseIPv6 s
    else if c = '%' then none
    else parseAddrScan s rest

/-- Go `netip.ParseAddr`. -/
def ParseAddr (s : String) : Option Addr := parseAddrScan s.data s.data

/-- Go `net.ParseIP`: the sixteen-byte form of the address, or `none` (Go
`nil`) when `s` is not an IP literal or carries a zone. -/
def ParseIP (s : String) : Option (List Nat) :=
  match ParseAddr s with
  | none => none
  | some a => if a.zone ≠ [] then none else some a.as16

/-! ## The handlers of server.go -/

/-- Go `httprouter.Params`; the handlers ignore it. -/
abbrev Params := List (String × String)

/-- What a handler call leaves behind: the response writer after the call and
the lines it sent to the standard logger (without the time stamp). -/
structure Effects where
  w : ResponseWriter
  log : List String
deriving DecidableEq, Repr

/-- Go `httprouter.Handle`, with the platform made explicit. -/
abbrev Handle := Env → ResponseWriter → Request → Params → Effects

/-- The constant `version`. -/
def version : String := "1.0.0"

/-- The variable `healthCheckResponse`. -/
def healthCheckResponse : String := "\x7b\"status\":\"ready\"\x7d"

/-- The handler `healthCheckHandler`: sets the content type, writes the fixed
payload. -/
def healthCheckHandler : Handle := fun _env w _r _ =>
  let w1 := { w with header := w.header.Set "Content-Type" "application/json" }
  ⟨w1.Write healthCheckResponse, []⟩

/-- The handler `getRemoteIPHandler`.  A failed split writes the diagnostic
and execution goes on to `net.ParseIP` with the host that was returned. -/
def getRemoteIPHandler : Handle := fun env w r _ =>
  let ip := (SplitHostPort r.RemoteAddr).1
  let port := (SplitHostPort r.RemoteAddr).2.1
  let err := (SplitHostPort r.RemoteAddr).2.2
  let w1 :=
    if err ≠ none then
      Fprintf env w "user IP address %q is not in the format IP:Port" [r.RemoteAddr]
    else w
  let userIP := ParseIP ip
  if userIP = none then
    ⟨Fprintf env w1 "user IP address %q is not in the format IP:Port" [r.RemoteAddr], []⟩
  else
    let forwardIP := r.Header.Get "X-Forwarded-For"
    let w2 := Fprintf env w1 "IP: %s\n" [ip]
    let w3 := Fprintf env w2 "Port: %s\n" [port]
    let w4 := Fprintf env w3 "Forwarded for IP: %s\n" [forwardIP]
    ⟨w4, []⟩

/-- The handler `helloHandler`: logs the path, then writes the greeting, the
host name (the error of the lookup is discarded) and the version. -/
def helloHandler : Handle := fun env w r _ =>
  let logged := [Sprintf env.isPrintTable "Serving requests: %s" [r.URL.Path]]
  let hostname := (os_Hostname env).1
  let w1 := Fprintf env w "Hello World!\n" []
  let w2 := Fprintf env w1 "Hostname is: %s\n" [hostname]
  let w3 := Fprintf env w2 "Version is: %s\n" [version]
  ⟨w3, logged⟩

/-! ## httprouter: the route table and the dispatch

The router keeps one tree of routes per method.  The program registers only
paths without `:` and `*`; for such paths a tree stores each path with its
handle and a lookup succeeds exactly on an identical path, so a tree is kept
here as the list of its (path, handle) entries.

`(*Router).ServeHTTP` is transcribed from release v1.3.0 of the library with
the settings `httprouter.New()` gives a router, which `main` never changes: a
request without a handle is answered by a redirect to a repaired path, by the
list of allowed methods, by 405, or by 404.  The two searches the tree makes
for a repaired path are written over the list of entries; they agree with the
walk of the tree for the three routes of this program.  Letter case is folded
for ASCII letters; the registered paths are ASCII, and what the library does
with a rune outside ASCII differs between its releases and is not
represented. -/

/-- Go `httprouter.Router`: the route trees by method, the four switches set
by `New`, and the cached answer to `OPTIONS *`.  The fields `NotFound`,
`MethodNotAllowed`, `GlobalOPTIONS` and `PanicHandler` stay nil in this
program and are left out. -/
structure Router where
  trees : List (String × List (String × Handle))
  RedirectTrailingSlash : Bool
  RedirectFixedPath : Bool
  HandleMethodNotAllowed : Bool
  HandleOPTIONS : Bool
  globalAllowed : String

/-- Go `httprouter.New()`. -/
def Router.New : Router :=
  { trees := [], RedirectTrailingSlash := true, RedirectFixedPath := true,
    HandleMethodNotAllowed := true, HandleOPTIONS := true, globalAllowed := "" }

/-- The entries registered for `method`. -/
def Router.tree (r : Router) (method : String) : List (String × Handle) :=
  (r.trees.lookup method).getD []

/-- Go `a < b` on strings: the order of the bytes, which on valid UTF-8 is the
order of the characters. -/
def stringLess : List Char → List Char → Bool
  | [], [] => false
  | [], _ :: _ => true
  | _ :: _, [] => false
  | a :: as, b :: bs =>
    if a.toNat < b.toNat then true
    else if b.toNat < a.toNat then false
    else stringLess as bs

/-- The inner loop of the sort in Go `(*Router).allowed`: `s` moves left past
the greater strings of a sorted list. -/
def insertSorted (s : String) : List String → List String
  | [] => [s]
  | a :: rest =>
    if stringLess s.data a.data then s :: a :: rest else a :: insertSorted s rest

/-- The sort in Go `(*Router).allowed`: an insertion sort. -/
def sortStrings : List String → List String
  | [] => []
  | a :: rest => insertSorted a (sortStrings rest)

/-- The end of Go `(*Router).allowed`: when some method is allowed, `OPTIONS`
is added and the sorted methods are joined with a comma and a blank. -/
def joinAllowed (allowed : List String) : String :=
  if allowed.isEmpty then "" else ", ".intercalate (sortStrings (allowed ++ ["OPTIONS"]))

/-- Go `(*Router).allowed(path, reqMethod)`: for the path `*` the methods of
the whole server (cached, unless `reqMethod` is empty), otherwise the methods
other than `reqMethod` and `OPTIONS` that have a handle for `path`. -/
def Router.allowed (r : Router) (path reqMethod : String) : String :=
  if path = "*" then
    if reqMethod = "" then
      joinAllowed ((r.trees.map fun t => t.1).filter fun m => m != "OPTIONS")
    else r.globalAllowed
  else
    joinAllowed ((r.trees.filter fun t =>
      t.1 != reqMethod && t.1 != "OPTIONS" && (t.2.lookup path).isSome).map fun t => t.1)

/-- Go `(*Router).Handle(method, path, handle)`.  The library panics (here:
an error) for a path that does not begin with `/` and for a path that already
has a handle under this method; paths with wildcards are outside this
representation of the tree.  A method seen for the first time gets a tree and
the cached answer to `OPTIONS *` is refreshed. -/
def Router.Handle (r : Router) (method path : String) (handle : Server.Handle) :
    Except String Router :=
  if path.data.head? ≠ some '/' then
    .error ("path must begin with '/' in path '" ++ path ++ "'")
  else if path.data.contains ':' ∨ path.data.contains '*' then
    .error "wildcard route"
  else
    let r1 : Router :=
      if (r.trees.lookup method).isSome then r
      else
        let r0 := { r with trees := r.trees ++ [(method, [])] }
        { r0 with globalAllowed := r0.allowed "*" "" }
    if ((r1.tree method).lookup path).isSome then
      .error ("a handle is already registered for path '" ++ path ++ "'")
    else
      .ok { r1 with trees := r1.trees.map fun t =>
        if t.1 = method then (t.1, t.2 ++ [(path, handle)]) else t }

/-- Go `(*Router).GET(path, handle)`. -/
def Router.GET (r : Router) (path : String) (handle : Server.Handle) :
    Except String Router :=
  r.Handle "GET" path handle

/-- Go `(*Router).Lookup(method, path)`: the handle registered for the pair,
if there is one. -/
def Router.Lookup (r : Router) (method path : String) : Option Server.Handle :=
  (r.tree method).lookup path

/-- The (method, path) pairs that have a handle. -/
def Router.routes (r : Router) : List (String × String) :=
  (r.trees.map fun t => t.2.map fun e => (t.1, e.1)).flatten

/-- The path `ServeHTTP` redirects to on a trailing-slash recommendation: the
last slash is removed from a path of more than one byte that ends in one, and
a slash is added to any other path. -/
def toggleTrailingSlash (path : String) : String :=
  if path.data.length > 1 ∧ path.data.getLast? = some '/' then ⟨path.data.dropLast⟩
  else path ++ "/"

/-- The trailing-slash recommendation (`tsr`) of Go `(*node).getValue` for a
path without a handle: the path with its trailing slash removed, or with one
added, has a handle. -/
def tsr (root : List (String × Handle)) (path : String) : Bool :=
  (root.lookup (toggleTrailingSlash path)).isSome

/-- The backtracking of Go `httprouter.CleanPath` at a `..` element: the last
element written and the slash before it are dropped; `buf` begins with the
root slash, which stays. -/
def cleanBacktrack (buf : List Char) : List Char :=
  '/' :: (((buf.drop 1).reverse.dropWhile fun c => c != '/').drop 1).reverse

/-- The loop `for r < n` of Go `httprouter.CleanPath` over the path `p`: `r`
is the next position to read, `buf` what has been written (`w` is its
length), `trailing` the flag of that name.  Every round reads at least one
byte, so `p.length` rounds are enough; the first argument counts the rounds
left. -/
def cleanLoop (p : List Char) : Nat → Nat → List Char → Bool → List Char × Bool
  | 0, _, buf, trailing => (buf, trailing)
  | fuel + 1, r, buf, trailing =>
    if r < p.length then
      if p.get? r = some '/' then cleanLoop p fuel (r + 1) buf trailing
      else if p.get? r = some '.' ∧ r + 1 = p.length then cleanLoop p fuel (r + 1) buf true
      else if p.get? r = some '.' ∧ p.get? (r + 1) = some '/' then
        cleanLoop p fuel (r + 2) buf trailing
      else if p.get? r = some '.' ∧ p.get? (r + 1) = some '.' ∧
          (r + 2 = p.length ∨ p.get? (r + 2) = some '/') then
        cleanLoop p fuel (r + 3) (if buf.length > 1 then cleanBacktrack buf else buf) trailing
      else
        cleanLoop p fuel (r + ((p.drop r).takeWhile fun c => c != '/').length)
          ((if buf.length > 1 then buf ++ ['/'] else buf) ++
            (p.drop r).takeWhile fun c => c != '/')
          trailing
    else (buf, trailing)

/-- Go `httprouter.CleanPath`: the rooted path without empty, `.` and `..`
elements; a trailing slash is kept. -/
def CleanPath (p : String) : String :=
  if p.data.isEmpty then "/"
  else
    let out := cleanLoop p.data (p.data.length + 1) (if p.data.head? = some '/' then 1 else 0)
      ['/'] (decide (p.data.length > 1) && p.data.getLast? = some '/')
    if out.2 ∧ out.1.length > 1 then ⟨out.1 ++ ['/']⟩ else ⟨out.1⟩

/-- Lower case of an ASCII letter; any other character is itself. -/
def asciiLower (c : Char) : Char :=
  if 'A' ≤ c ∧ c ≤ 'Z' then Char.ofNat (c.toNat + 32) else c

/-- Equality of two paths up to the case of ASCII letters. -/
def equalFold (a b : String) : Bool :=
  a.data.map asciiLower == b.data.map asciiLower

/-- Go `(*node).findCaseInsensitivePath(path, fixTrailingSlash)`: the
registered path that equals `path` up to letter case, or, when
`fixTrailingSlash` is set, that equals it up to letter case once the trailing
slash of `path` is removed or one is added. -/
def findCaseInsensitivePath (root : List (String × Handle)) (path : String)
    (fixTrailingSlash : Bool) : Option String :=
  match root.find? fun e => equalFold e.1 path with
  | some e => some e.1
  | none =>
    if fixTrailingSlash then
      (root.find? fun e => equalFold e.1 (toggleTrailingSlash path)).map fun e => e.1
    else none

/-- What `ServeHTTP` does with a request. -/
inductive Served where
  /-- The handle registered for the method and path ran. -/
  | handled (e : Effects)
  /-- Go `http.Redirect` with status `code` to the request URL with its path
  replaced by `path`. -/
  | redirect (code : Nat) (path : String)
  /-- The answer to `OPTIONS`: the header `Allow` is set and nothing is
  written. -/
  | allow (methods : String)
  /-- Go `http.Error` with status 405 after the header `Allow` is set. -/
  | methodNotAllowed (methods : String)
  /-- Go `http.NotFound`: status 404. -/
  | notFound
deriving DecidableEq, Repr

/-- The first part of Go `(*Router).ServeHTTP`, entered when the method of
the request has a tree: the handle of the path runs (with no parameters, the
path having no wildcard); without a handle, and unless the method is `CONNECT`
or the path is `/`, the request is redirected to the path with its trailing
slash toggled or to the repaired path, with status 301 for `GET` and 307 for
any other method.  `none` means that this part does not answer. -/
def Router.serveTree (r : Router) (env : Env) (w : ResponseWriter) (req : Request) :
    Option Served :=
  match r.trees.lookup req.Method with
  | none => none
  | some root =>
    match root.lookup req.URL.Path with
    | some handle => some (.handled (handle env w req []))
    | none =>
      if req.Method ≠ "CONNECT" ∧ req.URL.Path ≠ "/" then
        if tsr root req.URL.Path = true ∧ r.RedirectTrailingSlash = true then
          some (.redirect (if req.Method ≠ "GET" then 307 else 301)
            (toggleTrailingSlash req.URL.Path))
        else if r.RedirectFixedPath = true then
          match findCaseInsensitivePath root (CleanPath req.URL.Path)
              r.RedirectTrailingSlash with
          | some fixedPath =>
            some (.redirect (if req.Method ≠ "GET" then 307 else 301) fixedPath)
          | none => none
        else none
      else none

/-- The second part of Go `(*Router).ServeHTTP`: the answer to `OPTIONS`, the
405, and the 404 that is left when neither applies. -/
def Router.serveDefault (r : Router) (req : Request) : Served :=
  if req.Method = "OPTIONS" ∧ r.HandleOPTIONS = true then
    if r.allowed req.URL.Path "OPTIONS" ≠ "" then .allow (r.allowed req.URL.Path "OPTIONS")
    else .notFound
  else if r.HandleMethodNotAllowed = true then
    if r.allowed req.URL.Path req.Method ≠ "" then
      .methodNotAllowed (r.allowed req.URL.Path req.Method)
    else .notFound
  else .notFound

/-- Go `(*Router).ServeHTTP`. -/
def Router.ServeHTTP (r : Router) (env : Env) (w : ResponseWriter) (req : Request) :
    Served :=
  match r.serveTree env w req with
  | some s => s
  | none => r.serveDefault req

/-- Lines 59 to 63 of `main`: the router and its three registrations. -/
def mainRouter : Except String Router := do
  let router := Router.New
  let router ← router.GET "/" helloHandler
  let router ← router.GET "/getip" getRemoteIPHandler
  let router ← router.GET "/health" healthCheckHandler
  pure router

/-! ## The lifecycle of main

After line 81 the main goroutine is blocked on `errChan` and the goroutine of
line 76 is inside `srv.ListenAndServe()`.  From there on the program moves
only when one of three things happens; these are the events.  An event is
taken together with the statements that follow it up to the next blocking
call, so the return of a call and the `log.Fatalf` it leads to are one step.
A Go program ends with status 0 when `main` returns; `log.Fatalf` prints and
calls `os.Exit(1)`, which ends the program at once, without running deferred
calls. -/

/-- The signals `signal.Notify` forwards to `errChan` (`os.Interrupt` is
`syscall.SIGINT`). -/
inductive Signal where
  | SIGINT
  | SIGTERM
deriving DecidableEq, Repr

/-- What can unblock the program. -/
inductive Event where
  /-- A notified signal arrives. -/
  | signal (sig : Signal)
  /-- The `srv.ListenAndServe()` call of the goroutine returns `err`. -/
  | listenReturns (err : Option GoError)
  /-- The `srv.Shutdown(ctx)` call of `main` returns `err`. -/
  | shutdownReturns (err : Option GoError)
deriving DecidableEq, Repr

/-- Where the main goroutine is. -/
inductive MainState where
  /-- Blocked in `<-errChan` (line 83). -/
  | waiting
  /-- Inside `srv.Shutdown(ctx)` (line 94). -/
  | draining
  /-- Returned from `main`. -/
  | returned
deriving DecidableEq, Repr

/-- Where the goroutine started on line 76 is. -/
inductive ServeState where
  /-- Inside `srv.ListenAndServe()`. -/
  | listening
  /-- The function literal has returned. -/
  | finished
deriving DecidableEq, Repr

/-- A call registered with `defer` in `main`: the function literal of line 88,
whose body is `cancel()`. -/
inductive Deferred where
  | cancel
deriving DecidableEq, Repr

/-- The state of the process. -/
structure Proc where
  main : MainState
  serve : ServeState
  /-- The deferred calls of `main`, the latest first. -/
  deferred : List Deferred
  /-- The timeout, in seconds, of the context of line 86 once it exists. -/
  ctxTimeout : Option Nat
  /-- How many times the `cancel` of line 86 has been called. -/
  cancelCalls : Nat
  /-- The lines sent to the standard logger (without the time stamp). -/
  log : List String
  /-- The exit status once the process has ended. -/
  exit : Option Nat
deriving DecidableEq, Repr

/-- Go `log.Print(v)`. -/
def log_Print (p : Proc) (v : String) : Proc :=
  { p with log := p.log ++ [v] }

/-- Go `os.Exit(code)`: the process ends; deferred calls are not run. -/
def os_Exit (p : Proc) (code : Nat) : Proc :=
  { p with exit := some code }

/-- Go `log.Fatalf(format, args...)`: `Printf` followed by `os.Exit(1)`. -/
def log_Fatalf (env : Env) (p : Proc) (format : String) (args : List String) : Proc :=
  os_Exit (log_Print p (Sprintf env.isPrintTable format args)) 1

/-- One deferred call is executed. -/
def runDeferred (p : Proc) : Deferred → Proc
  | .cancel => { p with cancelCalls := p.cancelCalls + 1 }

/-- Return from `main`: the deferred calls run, the latest first, and the
program ends with status 0. -/
def returnFromMain (p : Proc) : Proc :=
  let q := p.deferred.foldl runDeferred { p with deferred := [] }
  { q with main := .returned, exit := some 0 }

/-- The process once `main` has reached line 83: the server goroutine has
been started and the listening line has been logged. -/
def start : Proc :=
  { main := .waiting, serve := .listening, deferred := [], ctxTimeout := none,
    cancelCalls := 0, log := ["Server is listening on http://localhost:8080/"],
    exit := none }

/-- The goroutine of lines 76 to 80 when `srv.ListenAndServe()` returns. -/
def afterListen (env : Env) (p : Proc) (err : Option GoError) : Proc :=
  match err with
  | some e =>
    if e ≠ GoError.ErrServerClosed then log_Fatalf env p "listen: %s\n" [e.Error]
    else { p with serve := .finished }
  | none => { p with serve := .finished }

/-- Lines 84 to 94 of `main`, up to the call of `srv.Shutdown(ctx)`. -/
def afterSignal (p : Proc) : Proc :=
  let p1 := log_Print p "Shutting down the server..."
  let p2 := { p1 with ctxTimeout := some 5 }
  let p3 := { p2 with deferred := Deferred.cancel :: p2.deferred }
  { p3 with main := .draining }

/-- Lines 94 to 99 of `main`, when `srv.Shutdown(ctx)` returns. -/
def afterShutdown (env : Env) (p : Proc) (err : Option GoError) : Proc :=
  match err with
  | some e => log_Fatalf env p "Server shutdown failed: %+v" [e.Error]
  | none => returnFromMain (log_Print p "Server gracefully stopped")

/-- One event.  `none` means the event cannot happen in this state: nothing
happens to a process that has ended, a call returns only while it is running.
A signal that arrives when `main` no longer waits stays in the channel. -/
def step (env : Env) (p : Proc) : Event → Option Proc
  | .signal _ =>
    if p.exit.isSome then none
    else match p.main with
      | .waiting => some (afterSignal p)
      | _ => some p
  | .listenReturns err =>
    if p.exit.isSome then none
    else match p.serve with
      | .listening => some (afterListen env p err)
      | .finished => none
  | .shutdownReturns err =>
    if p.exit.isSome then none
    else match p.main with
      | .draining => some (afterShutdown env p err)
      | _ => none

/-- A sequence of events, from the left. -/
def run (env : Env) : Proc → List Event → Option Proc
  | p, [] => some p
  | p, e :: es =>
    match step env p e with
    | none => none
    | some q => run env q es

/-! ## Vocabulary of the statements -/

/-- The diagnostic of `getRemoteIPHandler` for the remote address `addr`. -/
def malformedMessage (env : Env) (addr : String) : String :=
  "user IP address " ++ Quote env.isPrintTable addr ++ " is not in the format IP:Port"

/-- The host name `helloHandler` prints: the name found, or the empty name
when the lookup failed. -/
def hostnameOrEmpty (env : Env) : String :=
  match env.hostnameLookup with
  | .ok name => name
  | .error _ => ""

/-- An event sequence holds a fatal return: `srv.ListenAndServe()` returning
an error other than `http.ErrServerClosed`, or `srv.Shutdown` returning an
error. -/
def hasFatalReturn (es : List Event) : Prop :=
  (∃ e, e ≠ GoError.ErrServerClosed ∧ Event.listenReturns (some e) ∈ es) ∨
    (∃ e, Event.shutdownReturns (some e) ∈ es)

/-! ## Sample inputs -/

/-- A platform whose host name is `web-0` and whose tables call no wide rune
printable. -/
def sampleEnv : Env := ⟨.ok "web-0", fun _ => false⟩

/-- A `GET /getip` request with remote address `addr` and header map `h`. -/
def getipRequest (addr : String) (h : Header) : Request :=
  { Method := "GET", URL := ⟨"/getip"⟩, Header := h, RemoteAddr := addr }

/-- The GET tree after the three registrations of `main`. -/
def mainTree : List (String × Handle) :=
  [("/", helloHandler), ("/getip", getRemoteIPHandler), ("/health", healthCheckHandler)]

/-- The router `main` hands to the server: the settings of `httprouter.New()`
and the three GET routes. -/
def builtRouter : Router :=
  { trees := [("GET", mainTree)], RedirectTrailingSlash := true, RedirectFixedPath := true,
    HandleMethodNotAllowed := true, HandleOPTIONS := true, globalAllowed := "GET, OPTIONS" }

/-- A request with the given method and path, no header and the remote address
of the spec's example. -/
def requestFor (method path : String) : Request :=
  { Method := method, URL := ⟨path⟩, Header := [], RemoteAddr := "203.0.113.5:54321" }

/-! ## Lemmas: response writers and formatting -/

theorem writes_Write (w : ResponseWriter) (b : String) :
    (w.Write b).writes = w.writes ++ [b] := by
  unfold ResponseWriter.Write ResponseWriter.WriteHeader
  cases h : w.status <;> simp

theorem writes_Fprintf (env : Env) (w : ResponseWriter) (format : String)
    (args : List String) :
    (Fprintf env w format args).writes = w.writes ++ [Sprintf env.isPrintTable format args] :=
  writes_Write w _

theorem status_Write (w : ResponseWriter) (b : String) (h : w.status = none) :
    (w.Write b).status = some 200 := by
  unfold ResponseWriter.Write ResponseWriter.WriteHeader
  simp [h]

theorem status_Write_of_some (w : ResponseWriter) (b : String) (c : Nat)
    (h : w.status = some c) : (w.Write b).status = some c := by
  unfold ResponseWriter.Write
  simp [h]

theorem foldr_append_string (ws : List String) (init : String) :
    ws.foldr (fun b acc => b ++ acc) init = ws.foldr (fun b acc => b ++ acc) "" ++ init := by
  induction ws with
  | nil => simp
  | cons a ws ih => simp only [List.foldr_cons]; rw [ih, String.append_assoc]

theorem body_of_writes (w w1 : ResponseWriter) (bs : List String)
    (h : w1.writes = w.writes ++ bs) :
    w1.body = w.body ++ bs.foldr (fun b acc => b ++ acc) "" := by
  unfold ResponseWriter.body
  rw [h, List.foldr_append, foldr_append_string]

theorem body_fresh_of_writes (w1 : ResponseWriter) (bs : List String)
    (h : w1.writes = ResponseWriter.fresh.writes ++ bs) :
    w1.body = bs.foldr (fun b acc => b ++ acc) "" := by
  rw [body_of_writes _ _ _ h]
  simp [ResponseWriter.body, ResponseWriter.fresh]

theorem sprintf_malformed (env : Env) (a : String) :
    Sprintf env.isPrintTable "user IP address %q is not in the format IP:Port" [a] =
      malformedMessage env a := rfl

theorem sprintf_ip (tbl : Char → Bool) (a : String) :
    Sprintf tbl "IP: %s\n" [a] = "IP: " ++ a ++ "\n" := rfl

theorem sprintf_port (tbl : Char → Bool) (a : String) :
    Sprintf tbl "Port: %s\n" [a] = "Port: " ++ a ++ "\n" := rfl

theorem sprintf_forwarded (tbl : Char → Bool) (a : String) :
    Sprintf tbl "Forwarded for IP: %s\n" [a] = "Forwarded for IP: " ++ a ++ "\n" := rfl

theorem sprintf_hello (tbl : Char → Bool) :
    Sprintf tbl "Hello World!\n" [] = "Hello World!\n" := rfl

theorem sprintf_hostname (tbl : Char → Bool) (a : String) :
    Sprintf tbl "Hostname is: %s\n" [a] = "Hostname is: " ++ a ++ "\n" := rfl

theorem sprintf_version (tbl : Char → Bool) :
    Sprintf tbl "Version is: %s\n" [version] = "Version is: 1.0.0\n" := rfl

theorem sprintf_serving (tbl : Char → Bool) (a : String) :
    Sprintf tbl "Serving requests: %s" [a] = "Serving requests: " ++ a := by
  apply String.ext
  show "Serving requests: ".data ++ (a.data ++ []) = "Serving requests: ".data ++ a.data
  rw [List.append_nil]

/-! ## Lemmas: quoting never emits a line break -/

theorem hexDigit_ne_newline (n : Nat) : hexDigit n ≠ '\n' := by
  unfold hexDigit
  by_cases h : n < 16
  · interval_cases n <;> decide
  · rw [List.getD_eq_default]
    · decide
    · simp [lowerhex]; omega

theorem hexDigits_no_newline (n : Nat) (shifts : List Nat) : '\n' ∉ hexDigits n shifts := by
  unfold hexDigits
  intro h
  obtain ⟨s, -, hs⟩ := List.mem_map.mp h
  exact hexDigit_ne_newline _ hs

theorem not_mem_ite {p : Prop} [Decidable p] {a b : List Char} {c : Char}
    (ha : c ∉ a) (hb : c ∉ b) : c ∉ (if p then a else b) := by
  split <;> assumption

theorem escapeSwitch_no_newline (r : Char) : '\n' ∉ escapeSwitch r := by
  have h : ∀ n, ¬ '\n' = hexDigit n := fun n e => hexDigit_ne_newline n e.symm
  have h2 := hexDigits_no_newline
  unfold escapeSwitch
  repeat' apply not_mem_ite
  all_goals
    simp only [List.mem_cons, List.mem_singleton, List.not_mem_nil, or_false, not_or]
    repeat' apply And.intro
    all_goals first
      | exact h _
      | exact h2 _ _
      | decide

theorem isPrint_newline (tbl : Char → Bool) : IsPrint tbl '\n' = false := by
  simp [IsPrint]

theorem appendEscapedRune_no_newline (tbl : Char → Bool) (r : Char) (ascii : Bool) :
    '\n' ∉ appendEscapedRune tbl r dquote ascii := by
  unfold appendEscapedRune
  have hsw := escapeSwitch_no_newline r
  by_cases hr : r = '\n'
  · subst hr
    have hq : ¬ ('\n' = dquote ∨ '\n' = '\\') := by decide
    rw [if_neg hq]
    cases ascii <;> simp [isPrint_newline, hsw]
  · have hr1 : ¬ '\n' = r := fun e => hr e.symm
    have h1 : '\n' ∉ [r] := by simp [hr1]
    have h2 : '\n' ∉ ['\\', r] := by
      simp only [List.mem_cons, List.mem_singleton, List.not_mem_nil, or_false, not_or]
      exact ⟨by decide, hr1⟩
    exact not_mem_ite h2 (not_mem_ite (not_mem_ite h1 hsw) (not_mem_ite h1 hsw))

theorem quoted_no_newline (tbl : Char → Bool) (s : List Char) (ascii : Bool) :
    '\n' ∉ appendQuotedWith tbl s dquote ascii := by
  unfold appendQuotedWith
  intro h
  rcases List.mem_cons.mp h with h | h
  · exact absurd h (by decide)
  · rcases List.mem_append.mp h with h | h
    · obtain ⟨l, hl, hc⟩ := List.mem_flatten.mp h
      obtain ⟨r, -, rfl⟩ := List.mem_map.mp hl
      exact appendEscapedRune_no_newline tbl r ascii hc
    · exact absurd (List.mem_singleton.mp h) (by decide)

theorem malformedMessage_no_newline (env : Env) (addr : String) :
    '\n' ∉ (malformedMessage env addr).data := by
  unfold malformedMessage Quote
  simp only [String.data_append, List.mem_append, not_or]
  exact ⟨⟨by decide, quoted_no_newline _ _ _⟩, by decide⟩

theorem not_contains_of_newline (s line : String) (hs : '\n' ∉ s.data)
    (hl : '\n' ∈ line.data) : ¬ Contains s line :=
  fun h => hs (h.subset hl)

theorem newline_mem_line (pre s : String) : '\n' ∈ (pre ++ s ++ "\n").data := by
  simp [String.data_append]

/-! ## Lemmas: substrings -/

theorem contains_mid (a b c : String) : Contains (a ++ b ++ c) b :=
  ⟨a.data, c.data, by simp [String.data_append]⟩

theorem contains_append_left (a b sub : String) (h : Contains b sub) :
    Contains (a ++ b) sub := by
  obtain ⟨p, q, hpq⟩ := h
  exact ⟨a.data ++ p, q, by simp [String.data_append, ← hpq]⟩

/-! ## Lemmas: headers -/

theorem canonical_forwarded : CanonicalMIMEHeaderKey "X-Forwarded-For" = "X-Forwarded-For" := by
  decide

theorem canonical_content_type : CanonicalMIMEHeaderKey "Content-Type" = "Content-Type" := by
  decide

theorem get_set (h : Header) (key value : String) : (h.Set key value).Get key = value := by
  simp [Header.Get, Header.Set, List.lookup]

/-! ## Lemmas: what the handlers write -/

theorem writes_healthCheckHandler (env : Env) (w : ResponseWriter) (r : Request)
    (ps : Params) :
    (healthCheckHandler env w r ps).w.writes = w.writes ++ [healthCheckResponse] := by
  unfold healthCheckHandler
  simp [writes_Write]

theorem writes_helloHandler (env : Env) (w : ResponseWriter) (r : Request) (ps : Params) :
    (helloHandler env w r ps).w.writes =
      w.writes ++ ["Hello World!\n", "Hostname is: " ++ hostnameOrEmpty env ++ "\n",
        "Version is: 1.0.0\n"] := by
  have hh : (os_Hostname env).1 = hostnameOrEmpty env := by
    unfold os_Hostname hostnameOrEmpty
    cases env.hostnameLookup <;> rfl
  unfold helloHandler
  simp only [writes_Fprintf, sprintf_hello, sprintf_hostname, sprintf_version, hh,
    List.append_assoc, List.singleton_append, List.cons_append, List.nil_append]

theorem status_after_write (w : ResponseWriter) (b : String) :
    (w.Write b).status = some (w.status.getD 200) := by
  cases h : w.status with
  | none => simp [status_Write w b h]
  | some c => simp [status_Write_of_some w b c h]

/-! ## Lemmas: the remote-address handler -/

theorem SplitHostPort_cases (s : String) :
    (SplitHostPort s).2.2 = none ∨ ((SplitHostPort s).1 = "" ∧ (SplitHostPort s).2.1 = "") := by
  unfold SplitHostPort splitTail addrErr
  repeat' split
  all_goals first
    | exact Or.inr ⟨rfl, rfl⟩
    | exact Or.inl rfl

theorem SplitHostPort_error (s : String) (h : (SplitHostPort s).2.2 ≠ none) :
    (SplitHostPort s).1 = "" ∧ (SplitHostPort s).2.1 = "" :=
  (SplitHostPort_cases s).resolve_left h

theorem ParseIP_empty : ParseIP "" = none := by decide

theorem writes_getip_ok (env : Env) (w : ResponseWriter) (r : Request)
    (ps : Params) (h p : String) (hs : SplitHostPort r.RemoteAddr = (h, p, none))
    (hip : ParseIP h ≠ none) :
    (getRemoteIPHandler env w r ps).w.writes =
      w.writes ++ ["IP: " ++ h ++ "\n", "Port: " ++ p ++ "\n",
        "Forwarded for IP: " ++ r.Header.Get "X-Forwarded-For" ++ "\n"] := by
  unfold getRemoteIPHandler
  simp only [hs, ne_eq, not_true_eq_false, if_false, hip, writes_Fprintf, sprintf_ip,
    sprintf_port, sprintf_forwarded, List.append_assoc, List.singleton_append,
    List.cons_append, List.nil_append]

theorem writes_getip_bad_host (env : Env) (w : ResponseWriter)
    (r : Request) (ps : Params) (h p : String)
    (hs : SplitHostPort r.RemoteAddr = (h, p, none)) (hip : ParseIP h = none) :
    (getRemoteIPHandler env w r ps).w.writes =
      w.writes ++ [malformedMessage env r.RemoteAddr] := by
  unfold getRemoteIPHandler
  simp only [hs, ne_eq, not_true_eq_false, if_false, hip, if_true, writes_Fprintf,
    sprintf_malformed]

theorem writes_getip_no_split (env : Env) (w : ResponseWriter)
    (r : Request) (ps : Params) (hs : (SplitHostPort r.RemoteAddr).2.2 ≠ none) :
    (getRemoteIPHandler env w r ps).w.writes =
      w.writes ++ [malformedMessage env r.RemoteAddr, malformedMessage env r.RemoteAddr] := by
  have hip : ParseIP (SplitHostPort r.RemoteAddr).1 = none := by
    rw [(SplitHostPort_error _ hs).1]
    exact ParseIP_empty
  unfold getRemoteIPHandler
  simp only [hs, ne_eq, not_false_eq_true, if_true, hip, writes_Fprintf, sprintf_malformed,
    List.append_assoc, List.singleton_append]

theorem no_line_of_no_newline (body : String) (hb : '\n' ∉ body.data) (s : String) :
    ¬ Contains body ("IP: " ++ s ++ "\n") ∧ ¬ Contains body ("Port: " ++ s ++ "\n") ∧
      ¬ Contains body ("Forwarded for IP: " ++ s ++ "\n") :=
  ⟨not_contains_of_newline _ _ hb (newline_mem_line _ _),
    not_contains_of_newline _ _ hb (newline_mem_line _ _),
    not_contains_of_newline _ _ hb (newline_mem_line _ _)⟩

theorem appendEscapedRune_plain (tbl : Char → Bool) (c : Char)
    (h : c ≠ dquote ∧ c ≠ '\\' ∧ IsPrint tbl c = true) :
    appendEscapedRune tbl c dquote false = [c] := by
  unfold appendEscapedRune
  simp [h.1, h.2.1, h.2.2]

theorem quote_plain (tbl : Char → Bool) (s : String)
    (h : ∀ c ∈ s.data, c ≠ dquote ∧ c ≠ '\\' ∧ IsPrint tbl c = true) :
    Quote tbl s = "\"" ++ s ++ "\"" := by
  have hmap : ∀ l : List Char, (∀ c ∈ l, c ≠ dquote ∧ c ≠ '\\' ∧ IsPrint tbl c = true) →
      (l.map fun r => appendEscapedRune tbl r dquote false).flatten = l := by
    intro l
    induction l with
    | nil => intro _; rfl
    | cons a l ih =>
      intro hl
      simp only [List.map_cons, List.flatten_cons]
      rw [appendEscapedRune_plain tbl a (hl a (List.mem_cons_self _ _)),
        ih fun c hc => hl c (List.mem_cons_of_mem _ hc)]
      rfl
  apply String.ext
  unfold Quote appendQuotedWith
  simp only [String.data_append, hmap s.data h]
  rfl

/-! ## Lemmas: the lifecycle -/

theorem step_of_ended (env : Env) (p : Proc) (e : Event) (hp : p.exit.isSome = true) :
    step env p e = none := by
  cases e <;> simp [step, hp]

theorem run_of_ended (env : Env) (p q : Proc) (es : List Event) (hp : p.exit.isSome = true)
    (h : run env p es = some q) : es = [] ∧ q = p := by
  cases es with
  | nil => simp [run] at h; exact ⟨rfl, h.symm⟩
  | cons e es => simp [run, step_of_ended env p e hp] at h

theorem exit_log_Fatalf (env : Env) (p : Proc) (format : String) (args : List String) :
    (log_Fatalf env p format args).exit = some 1 := rfl

theorem run_exit (env : Env) (es : List Event) :
    ∀ p q : Proc, p.exit = none → run env p es = some q →
      (q.exit = some 0 ↔ Event.shutdownReturns none ∈ es) ∧
      (q.exit = some 1 ↔ hasFatalReturn es) ∧
      (q.exit = none ∨ q.exit = some 0 ∨ q.exit = some 1) ∧
      ((∃ err, Event.shutdownReturns err ∈ es) →
        p.main = .draining ∨ ∃ sig, Event.signal sig ∈ es) := by
  induction es with
  | nil =>
    intro p q hp h
    simp only [run, Option.some.injEq] at h
    subst h
    simp [hp, hasFatalReturn]
  | cons e es ih =>
    intro p q hp h
    cases e with
    | signal sig =>
      have hstep : ∃ p1, step env p (.signal sig) = some p1 ∧ p1.exit = none ∧
          (p1.main = .draining → p.main = .draining ∨ p.main = .waiting) := by
        cases hm : p.main <;> simp [step, hp, hm, afterSignal, log_Print]
      obtain ⟨p1, hs, hp1, -⟩ := hstep
      simp only [run, hs] at h
      obtain ⟨h0, h1, h2, -⟩ := ih p1 q hp1 h
      refine ⟨?_, ?_, h2, fun _ => Or.inr ⟨sig, List.mem_cons_self _ _⟩⟩
      · simp [h0]
      · simp [h1, hasFatalReturn]
    | listenReturns err =>
      cases hsv : p.serve with
      | finished => simp [run, step, hp, hsv] at h
      | listening =>
        have hs : step env p (.listenReturns err) = some (afterListen env p err) := by
          simp [step, hp, hsv]
        simp only [run, hs] at h
        by_cases hfatal : ∃ e, err = some e ∧ e ≠ GoError.ErrServerClosed
        · obtain ⟨e, rfl, hne⟩ := hfatal
          have hal : afterListen env p (some e) =
              log_Fatalf env p "listen: %s\n" [e.Error] := by
            simp [afterListen, hne]
          rw [hal] at h
          obtain ⟨rfl, rfl⟩ := run_of_ended env _ q es (by simp [exit_log_Fatalf]) h
          refine ⟨?_, ?_, Or.inr (Or.inr (exit_log_Fatalf _ _ _ _)), ?_⟩
          · simp [exit_log_Fatalf]
          · simp only [exit_log_Fatalf, true_iff]
            exact Or.inl ⟨e, hne, List.mem_singleton.mpr rfl⟩
          · simp
        · have hal : afterListen env p err = { p with serve := .finished } := by
            cases err with
            | none => rfl
            | some e =>
              have : e = GoError.ErrServerClosed := by
                by_contra hne
                exact hfatal ⟨e, rfl, hne⟩
              simp [afterListen, this]
          rw [hal] at h
          obtain ⟨h0, h1, h2, h3⟩ := ih { p with serve := .finished } q hp h
          refine ⟨?_, ?_, h2, ?_⟩
          · simp [h0]
          · rw [h1]
            unfold hasFatalReturn
            simp only [List.mem_cons, Event.listenReturns.injEq, reduceCtorEq, false_or]
            constructor
            · rintro (⟨e, hne, hm⟩ | hm)
              · exact Or.inl ⟨e, hne, Or.inr hm⟩
              · exact Or.inr hm
            · rintro (⟨e, hne, hm | hm⟩ | hm)
              · exact absurd ⟨e, hm.symm, hne⟩ hfatal
              · exact Or.inl ⟨e, hne, hm⟩
              · exact Or.inr hm
          · intro hx
            simp only [List.mem_cons, reduceCtorEq, false_or] at hx ⊢
            exact h3 hx
    | shutdownReturns err =>
      cases hm : p.main with
      | waiting => simp [run, step, hp, hm] at h
      | returned => simp [run, step, hp, hm] at h
      | draining =>
        have hs : step env p (.shutdownReturns err) = some (afterShutdown env p err) := by
          simp [step, hp, hm]
        simp only [run, hs] at h
        cases err with
        | none =>
          have hx : (afterShutdown env p none).exit = some 0 := rfl
          obtain ⟨rfl, rfl⟩ := run_of_ended env _ q es (by simp [hx]) h
          refine ⟨by simp [hx], ?_, Or.inr (Or.inl hx), fun _ => Or.inl rfl⟩
          simp [hx, hasFatalReturn]
        | some e =>
          have hx : (afterShutdown env p (some e)).exit = some 1 := rfl
          obtain ⟨rfl, rfl⟩ := run_of_ended env _ q es (by simp [hx]) h
          refine ⟨by simp [hx], ?_, Or.inr (Or.inr hx), fun _ => Or.inl rfl⟩
          simp [hx, hasFatalReturn]

/-! ## Lemmas: the router -/

theorem mainRouter_eq : mainRouter = .ok builtRouter := rfl

theorem lookup_mainTree_none (path : String)
    (h : path ∉ ["/", "/getip", "/health"]) : mainTree.lookup path = none := by
  simp only [List.mem_cons, List.mem_singleton, List.not_mem_nil, or_false, not_or] at h
  have b1 : (path == "/") = false := by simpa using h.1
  have b2 : (path == "/getip") = false := by simpa using h.2.1
  have b3 : (path == "/health") = false := by simpa using h.2.2
  simp [mainTree, List.lookup, b1, b2, b3]

theorem lookup_mainTree_isSome (path : String) :
    (mainTree.lookup path).isSome = true ↔ path ∈ ["/", "/getip", "/health"] := by
  by_cases h : path ∈ ["/", "/getip", "/health"]
  · simp only [h, iff_true]
    simp only [List.mem_cons, List.mem_singleton, List.not_mem_nil, or_false] at h
    rcases h with rfl | rfl | rfl <;> rfl
  · simp [lookup_mainTree_none path h, h]

theorem mem_mainTree_path (e : String × Handle) (h : e ∈ mainTree) :
    e.1 ∈ ["/", "/getip", "/health"] := by
  simp only [mainTree, List.mem_cons, List.mem_singleton, List.not_mem_nil, or_false] at h
  rcases h with rfl | rfl | rfl <;> simp

theorem trees_lookup_other (method : String) (h : method ≠ "GET") :
    builtRouter.trees.lookup method = none := by
  have b : (method == "GET") = false := by simpa using h
  simp [builtRouter, List.lookup, b]

theorem allowed_star (method : String) (h : method ≠ "") :
    builtRouter.allowed "*" method = "GET, OPTIONS" := by
  simp [Router.allowed, h, builtRouter]

theorem allowed_get (path : String) (h : path ≠ "*") : builtRouter.allowed path "GET" = "" := by
  simp [Router.allowed, h, builtRouter, joinAllowed]

theorem allowed_other (path method : String) (hm : method ≠ "GET") (hp : path ≠ "*") :
    builtRouter.allowed path method =
      if path ∈ ["/", "/getip", "/health"] then "GET, OPTIONS" else "" := by
  have hm1 : ("GET" != method) = true := by
    simp only [bne_iff_ne, ne_eq]
    exact fun e => hm e.symm
  have hj : joinAllowed ["GET"] = "GET, OPTIONS" := by decide
  by_cases h : path ∈ ["/", "/getip", "/health"]
  · have hl := (lookup_mainTree_isSome path).mpr h
    simp only [Router.allowed, hp, if_false, builtRouter, List.filter, hm1, hl, h, if_true]
    exact hj
  · have hl := lookup_mainTree_none path h
    simp [Router.allowed, hp, builtRouter, List.filter, hm1, hl, h, joinAllowed]

theorem serveDefault_other (req : Request) (hm : req.Method ≠ "GET") :
    builtRouter.serveDefault req =
      if req.URL.Path ∈ ["/", "/getip", "/health", "*"] then
        if req.Method = "OPTIONS" then .allow "GET, OPTIONS"
        else .methodNotAllowed "GET, OPTIONS"
      else .notFound := by
  have hne : ("GET, OPTIONS" : String) ≠ "" := by decide
  have hflags : builtRouter.HandleOPTIONS = true ∧ builtRouter.HandleMethodNotAllowed = true :=
    ⟨rfl, rfl⟩
  unfold Router.serveDefault
  rw [hflags.1, hflags.2]
  by_cases hs : req.URL.Path = "*"
  · by_cases ho : req.Method = "OPTIONS"
    · simp [hs, ho, allowed_star "OPTIONS" (by decide)]
    · by_cases he : req.Method = ""
      · simp [hs, ho, he, Router.allowed, builtRouter, joinAllowed]
        decide
      · simp [hs, ho, allowed_star _ he]
  · by_cases hp : req.URL.Path ∈ ["/", "/getip", "/health"]
    · have hp4 : req.URL.Path ∈ ["/", "/getip", "/health", "*"] := by
        simp only [List.mem_cons, List.mem_singleton, List.not_mem_nil, or_false] at hp ⊢
        tauto
      by_cases ho : req.Method = "OPTIONS"
      · have := allowed_other req.URL.Path "OPTIONS" (by decide) hs
        simp only [hp, if_true] at this
        simp [ho, this, hp4]
      · have := allowed_other req.URL.Path req.Method hm hs
        simp only [hp, if_true] at this
        simp [ho, this, hp4]
    · have hp4 : req.URL.Path ∉ ["/", "/getip", "/health", "*"] := by
        simp only [List.mem_cons, List.mem_singleton, List.not_mem_nil, or_false] at hp ⊢
        tauto
      by_cases ho : req.Method = "OPTIONS"
      · have := allowed_other req.URL.Path "OPTIONS" (by decide) hs
        simp only [hp, if_false] at this
        simp [ho, this, hp4]
      · have := allowed_other req.URL.Path req.Method hm hs
        simp only [hp, if_false] at this
        simp [ho, this, hp4]

theorem serveTree_other (env : Env) (w : ResponseWriter) (req : Request)
    (hm : req.Method ≠ "GET") : builtRouter.serveTree env w req = none := by
  unfold Router.serveTree
  rw [trees_lookup_other _ hm]

theorem serveTree_get (env : Env) (w : ResponseWriter) (req : Request)
    (hm : req.Method = "GET") (hp : req.URL.Path ∉ ["/", "/getip", "/health"]) :
    (∃ p ∈ ["/", "/getip", "/health"],
      builtRouter.serveTree env w req = some (.redirect 301 p)) ∨
    builtRouter.serveTree env w req = none := by
  have hl : builtRouter.trees.lookup "GET" = some mainTree := rfl
  have hn := lookup_mainTree_none _ hp
  have hflags : builtRouter.RedirectTrailingSlash = true ∧ builtRouter.RedirectFixedPath = true :=
    ⟨rfl, rfl⟩
  unfold Router.serveTree
  simp only [hl, hn, hflags.1, hflags.2, hm, ne_eq, not_true_eq_false, if_false, and_true,
    if_true]
  by_cases hc : ¬ ("GET" = "CONNECT") ∧ ¬ req.URL.Path = "/"
  · rw [if_pos hc]
    by_cases ht : tsr mainTree req.URL.Path = true
    · rw [if_pos ht]
      exact Or.inl ⟨_, (lookup_mainTree_isSome _).mp ht, rfl⟩
    · rw [if_neg ht]
      cases hf : findCaseInsensitivePath mainTree (CleanPath req.URL.Path) true with
      | none => exact Or.inr rfl
      | some fixedPath =>
        refine Or.inl ⟨fixedPath, ?_, rfl⟩
        unfold findCaseInsensitivePath at hf
        cases h1 : mainTree.find? fun e => equalFold e.1 (CleanPath req.URL.Path) with
        | some e =>
          simp only [h1, Option.some.injEq] at hf
          rw [← hf]
          exact mem_mainTree_path e (List.mem_of_find?_eq_some h1)
        | none =>
          simp only [h1, if_true, Option.map_eq_some'] at hf
          obtain ⟨e, he, rfl⟩ := hf
          exact mem_mainTree_path e (List.mem_of_find?_eq_some he)
  · rw [if_neg hc]
    exact Or.inr rfl

/-! ## The health handler -/

/-- Claim C1.  For every request, `healthCheckHandler` makes exactly one write,
whose payload is the bytes `{"status":"ready"}`, after setting `Content-Type`
to `application/json`; it never sets a status itself, so the status is the 200
that the first write sends (or the one already sent before the call).  On the
response writer of a new request the body is exactly `{"status":"ready"}`, the
status is 200 and the headers sent are `Content-Type: application/json`. -/
theorem healthCheckHandler_contract (env : Env) (w : ResponseWriter) (r : Request)
    (ps : Params) :
    (healthCheckHandler env w r ps).w.writes = w.writes ++ ["\x7b\"status\":\"ready\"\x7d"] ∧
    (healthCheckHandler env w r ps).w.header.Get "Content-Type" = "application/json" ∧
    (healthCheckHandler env w r ps).w.status = some (w.status.getD 200) ∧
    (healthCheckHandler env .fresh r ps).w.body = "\x7b\"status\":\"ready\"\x7d" ∧
    (healthCheckHandler env .fresh r ps).w.status = some 200 ∧
    (healthCheckHandler env .fresh r ps).w.sentHeader =
      some [("Content-Type", ["application/json"])] := by
  refine ⟨writes_healthCheckHandler env w r ps, ?_, ?_, ?_, ?_, ?_⟩
  · have h := get_set w.header "Content-Type" "application/json"
    unfold healthCheckHandler ResponseWriter.Write ResponseWriter.WriteHeader
    cases hs : w.status <;> simpa [hs] using h
  · unfold healthCheckHandler
    simp [status_after_write]
  · rfl
  · rfl
  · rfl

/-! ## The greeting handler -/

/-- Claim C6.  For every request and every outcome of the host-name lookup,
`helloHandler` makes exactly three writes: the greeting, the host name (the
empty name when the lookup failed) and the version.  On the response writer of
a new request the body is exactly
`"Hello World!\nHostname is: " ++ host ++ "\nVersion is: 1.0.0\n"`, it
contains `Version is: 1.0.0`, and the status is 200: the error of the lookup
is not surfaced.  The only other effect is the log line with the path. -/
theorem helloHandler_contract (env : Env) (w : ResponseWriter) (r : Request) (ps : Params) :
    (helloHandler env w r ps).w.writes =
      w.writes ++ ["Hello World!\n", "Hostname is: " ++ hostnameOrEmpty env ++ "\n",
        "Version is: 1.0.0\n"] ∧
    (helloHandler env .fresh r ps).w.body =
      "Hello World!\nHostname is: " ++ hostnameOrEmpty env ++ "\nVersion is: 1.0.0\n" ∧
    Contains (helloHandler env .fresh r ps).w.body "Version is: 1.0.0" ∧
    (helloHandler env .fresh r ps).w.status = some 200 ∧
    (helloHandler env w r ps).w.header = w.header ∧
    (helloHandler env w r ps).log = ["Serving requests: " ++ r.URL.Path] ∧
    (∀ e, env.hostnameLookup = .error e → hostnameOrEmpty env = "") ∧
    (∀ name, env.hostnameLookup = .ok name → hostnameOrEmpty env = name) := by
  have hb : (helloHandler env .fresh r ps).w.body =
      "Hello World!\nHostname is: " ++ hostnameOrEmpty env ++ "\nVersion is: 1.0.0\n" := by
    rw [body_fresh_of_writes _ _ (writes_helloHandler env .fresh r ps)]
    apply String.ext
    simp only [List.foldr_cons, List.foldr_nil, String.data_append, List.append_assoc]
    rfl
  refine ⟨writes_helloHandler env w r ps, hb, ?_, ?_, ?_, ?_, ?_, ?_⟩
  · rw [hb]
    have h := contains_mid ("Hello World!\nHostname is: " ++ hostnameOrEmpty env ++ "\n")
      "Version is: 1.0.0" "\n"
    have e : "Hello World!\nHostname is: " ++ hostnameOrEmpty env ++ "\n" ++
        "Version is: 1.0.0" ++ "\n" =
        "Hello World!\nHostname is: " ++ hostnameOrEmpty env ++ "\nVersion is: 1.0.0\n" := by
      apply String.ext
      simp only [String.data_append, List.append_assoc]
      rfl
    rw [e] at h
    exact h
  · rfl
  · unfold helloHandler Fprintf ResponseWriter.Write ResponseWriter.WriteHeader
    cases hs : w.status <;> simp [hs]
  · unfold helloHandler
    simp [sprintf_serving]
  · intro e he
    simp [hostnameOrEmpty, he]
  · intro name he
    simp [hostnameOrEmpty, he]

/-! ## The remote-address handler -/

/-- Claim C2.  For every request whose remote address splits into a host `h`
and a port `p` such that `h` parses as an IP literal, `getRemoteIPHandler`
makes exactly three writes, the lines `IP: h`, `Port: p` and
`Forwarded for IP: x` with `x` the value `Header.Get` finds for
`X-Forwarded-For`; none of its writes is the malformed-address diagnostic; on
the response writer of a new request the body is exactly
`"IP: " ++ h ++ "\nPort: " ++ p ++ "\nForwarded for IP: " ++ x ++ "\n"`.  For
the remote address `203.0.113.5:54321` the body contains `IP: 203.0.113.5` and
`Port: 54321`. -/
theorem getRemoteIPHandler_valid_address (env : Env) (w : ResponseWriter) (r : Request)
    (ps : Params) :
    (∀ h p, SplitHostPort r.RemoteAddr = (h, p, none) → ParseIP h ≠ none →
      (getRemoteIPHandler env w r ps).w.writes =
        w.writes ++ ["IP: " ++ h ++ "\n", "Port: " ++ p ++ "\n",
          "Forwarded for IP: " ++ r.Header.Get "X-Forwarded-For" ++ "\n"] ∧
      malformedMessage env r.RemoteAddr ∉ (getRemoteIPHandler env .fresh r ps).w.writes ∧
      (getRemoteIPHandler env .fresh r ps).w.body =
        "IP: " ++ h ++ "\nPort: " ++ p ++ "\nForwarded for IP: " ++
          r.Header.Get "X-Forwarded-For" ++ "\n") ∧
    (r.RemoteAddr = "203.0.113.5:54321" →
      Contains (getRemoteIPHandler env .fresh r ps).w.body "IP: 203.0.113.5" ∧
      Contains (getRemoteIPHandler env .fresh r ps).w.body "Port: 54321") := by
  have body_eq : ∀ h p, SplitHostPort r.RemoteAddr = (h, p, none) → ParseIP h ≠ none →
      (getRemoteIPHandler env .fresh r ps).w.body =
        "IP: " ++ h ++ "\nPort: " ++ p ++ "\nForwarded for IP: " ++
          r.Header.Get "X-Forwarded-For" ++ "\n" := by
    intro h p hs hip
    rw [body_fresh_of_writes _ _ (writes_getip_ok env .fresh r ps h p hs hip)]
    apply String.ext
    simp only [List.foldr_cons, List.foldr_nil, String.data_append, List.append_assoc]
    rfl
  refine ⟨fun h p hs hip =>
    ⟨writes_getip_ok env w r ps h p hs hip, ?_, body_eq h p hs hip⟩, ?_⟩
  · rw [writes_getip_ok env .fresh r ps h p hs hip]
    have hm := malformedMessage_no_newline env r.RemoteAddr
    intro hmem
    have hnl : '\n' ∈ (malformedMessage env r.RemoteAddr).data := by
      simp only [ResponseWriter.fresh, List.nil_append, List.mem_cons, List.mem_singleton,
        List.not_mem_nil, or_false] at hmem
      rcases hmem with e | e | e <;> rw [e] <;> exact newline_mem_line _ _
    exact hm hnl
  · intro haddr
    have hs : SplitHostPort r.RemoteAddr = ("203.0.113.5", "54321", none) := by
      rw [haddr]; decide
    rw [body_eq _ _ hs (by decide)]
    constructor
    · exact ⟨[], ("\nPort: 54321\nForwarded for IP: " ++
        r.Header.Get "X-Forwarded-For" ++ "\n").data, by
          simp only [String.data_append, List.nil_append, List.append_assoc]; rfl⟩
    · exact ⟨"IP: 203.0.113.5\n".data, ("\nForwarded for IP: " ++
        r.Header.Get "X-Forwarded-For" ++ "\n").data, by
          simp only [String.data_append, List.append_assoc]; rfl⟩

/-- Witness for C2: the request of the spec's example, with a forwarding
header. -/
theorem getRemoteIPHandler_valid_address_witness :
    SplitHostPort "203.0.113.5:54321" = ("203.0.113.5", "54321", none) ∧
    ParseIP "203.0.113.5" ≠ none ∧
    (getRemoteIPHandler sampleEnv .fresh
      (getipRequest "203.0.113.5:54321" [("X-Forwarded-For", ["198.51.100.7"])]) []).w.body =
      "IP: 203.0.113.5\nPort: 54321\nForwarded for IP: 198.51.100.7\n" :=
  ⟨by decide, by decide,
    ((getRemoteIPHandler_valid_address sampleEnv .fresh
      (getipRequest "203.0.113.5:54321" [("X-Forwarded-For", ["198.51.100.7"])]) []).1
      "203.0.113.5" "54321" (by decide) (by decide)).2.2⟩

/-- Claim C3.  For every request whose remote address splits into a host and
a port but whose host is not an IP literal, `getRemoteIPHandler` makes exactly
one write, the diagnostic `user IP address <quoted remote address> is not in
the format IP:Port`, and nothing after it: on the response writer of a new
request the body is exactly that message, it holds no line break and
therefore none of the lines `IP: ...`, `Port: ...`, `Forwarded for IP: ...`.
For the remote address `localhost:8080` the body is
`user IP address "localhost:8080" is not in the format IP:Port`. -/
theorem getRemoteIPHandler_invalid_host (env : Env) (w : ResponseWriter) (r : Request)
    (ps : Params) :
    (∀ h p, SplitHostPort r.RemoteAddr = (h, p, none) → ParseIP h = none →
      (getRemoteIPHandler env w r ps).w.writes =
        w.writes ++ ["user IP address " ++ Quote env.isPrintTable r.RemoteAddr ++
          " is not in the format IP:Port"] ∧
      (getRemoteIPHandler env .fresh r ps).w.body =
        "user IP address " ++ Quote env.isPrintTable r.RemoteAddr ++
          " is not in the format IP:Port" ∧
      '\n' ∉ (getRemoteIPHandler env .fresh r ps).w.body.data ∧
      ∀ s, ¬ Contains (getRemoteIPHandler env .fresh r ps).w.body ("IP: " ++ s ++ "\n") ∧
        ¬ Contains (getRemoteIPHandler env .fresh r ps).w.body ("Port: " ++ s ++ "\n") ∧
        ¬ Contains (getRemoteIPHandler env .fresh r ps).w.body
          ("Forwarded for IP: " ++ s ++ "\n")) ∧
    (r.RemoteAddr = "localhost:8080" →
      (getRemoteIPHandler env .fresh r ps).w.body =
        "user IP address \"localhost:8080\" is not in the format IP:Port") := by
  have body_eq : ∀ h p, SplitHostPort r.RemoteAddr = (h, p, none) → ParseIP h = none →
      (getRemoteIPHandler env .fresh r ps).w.body = malformedMessage env r.RemoteAddr := by
    intro h p hs hip
    rw [body_fresh_of_writes _ _
      (writes_getip_bad_host env .fresh r ps h p hs hip)]
    simp
  refine ⟨fun h p hs hip =>
    ⟨writes_getip_bad_host env w r ps h p hs hip, body_eq h p hs hip, ?_, ?_⟩,
    ?_⟩
  · rw [body_eq h p hs hip]
    exact malformedMessage_no_newline env r.RemoteAddr
  · rw [body_eq h p hs hip]
    exact no_line_of_no_newline _ (malformedMessage_no_newline env r.RemoteAddr)
  · intro haddr
    have hs : SplitHostPort r.RemoteAddr = ("localhost", "8080", none) := by
      rw [haddr]; decide
    rw [body_eq _ _ hs (by decide), haddr]
    rfl

/-- Witness for C3: the remote address `localhost:8080`. -/
theorem getRemoteIPHandler_invalid_host_witness :
    SplitHostPort "localhost:8080" = ("localhost", "8080", none) ∧
    ParseIP "localhost" = none ∧
    (getRemoteIPHandler sampleEnv .fresh (getipRequest "localhost:8080" []) []).w.writes =
      ["user IP address \"localhost:8080\" is not in the format IP:Port"] :=
  ⟨by decide, by decide,
    ((getRemoteIPHandler_invalid_host sampleEnv .fresh (getipRequest "localhost:8080" []) []).1
      "localhost" "8080" (by decide) (by decide)).1⟩

/-- Claim C10.  For every request whose remote address cannot be split,
`getRemoteIPHandler` does not stop after the first diagnostic: the host it
goes on with is empty, `net.ParseIP` of the empty host fails, and the handler
ends (it is a total function, no step of it can panic) after exactly two
writes, both the diagnostic for that remote address; on the response writer of
a new request the body is the diagnostic twice in a row. -/
theorem getRemoteIPHandler_double_diagnostic (env : Env) (w : ResponseWriter) (r : Request)
    (ps : Params) (hsplit : (SplitHostPort r.RemoteAddr).2.2 ≠ none) :
    (SplitHostPort r.RemoteAddr).1 = "" ∧
    ParseIP (SplitHostPort r.RemoteAddr).1 = none ∧
    (getRemoteIPHandler env w r ps).w.writes =
      w.writes ++ ["user IP address " ++ Quote env.isPrintTable r.RemoteAddr ++
          " is not in the format IP:Port",
        "user IP address " ++ Quote env.isPrintTable r.RemoteAddr ++
          " is not in the format IP:Port"] ∧
    (getRemoteIPHandler env .fresh r ps).w.body =
      "user IP address " ++ Quote env.isPrintTable r.RemoteAddr ++
          " is not in the format IP:Port" ++
        ("user IP address " ++ Quote env.isPrintTable r.RemoteAddr ++
          " is not in the format IP:Port") := by
  refine ⟨(SplitHostPort_error _ hsplit).1, ?_,
    writes_getip_no_split env w r ps hsplit, ?_⟩
  · rw [(SplitHostPort_error _ hsplit).1]
    exact ParseIP_empty
  · rw [body_fresh_of_writes _ _ (writes_getip_no_split env .fresh r ps hsplit)]
    simp [malformedMessage]

/-- Witness for C10: the remote address `not-a-valid-address`. -/
theorem getRemoteIPHandler_double_diagnostic_witness :
    (SplitHostPort "not-a-valid-address").2.2 ≠ none ∧
    (getRemoteIPHandler sampleEnv .fresh (getipRequest "not-a-valid-address" []) []).w.writes =
      ["user IP address \"not-a-valid-address\" is not in the format IP:Port",
        "user IP address \"not-a-valid-address\" is not in the format IP:Port"] :=
  ⟨by decide,
    (getRemoteIPHandler_double_diagnostic sampleEnv .fresh
      (getipRequest "not-a-valid-address" []) [] (by decide)).2.2.1⟩

/-- Claim C4.  For every request whose remote address cannot be split, the
body `getRemoteIPHandler` produces on the response writer of a new request is
not empty, begins with `user IP address `, contains the remote address in
quoted form (and verbatim when the address needs no escaping), and holds no
line break, hence no line `IP: ...`, `Port: ...` or `Forwarded for IP: ...`.
For the remote address `not-a-valid-address` the split fails and the body
contains `not-a-valid-address`. -/
theorem getRemoteIPHandler_unsplit_body (env : Env) (r : Request) (ps : Params) :
    ((SplitHostPort r.RemoteAddr).2.2 ≠ none →
      (getRemoteIPHandler env .fresh r ps).w.body ≠ "" ∧
      "user IP address ".data <+: (getRemoteIPHandler env .fresh r ps).w.body.data ∧
      Contains (getRemoteIPHandler env .fresh r ps).w.body
        (Quote env.isPrintTable r.RemoteAddr) ∧
      ((∀ c ∈ r.RemoteAddr.data, c ≠ dquote ∧ c ≠ '\\' ∧ IsPrint env.isPrintTable c = true) →
        Contains (getRemoteIPHandler env .fresh r ps).w.body r.RemoteAddr) ∧
      '\n' ∉ (getRemoteIPHandler env .fresh r ps).w.body.data ∧
      ∀ s, ¬ Contains (getRemoteIPHandler env .fresh r ps).w.body ("IP: " ++ s ++ "\n") ∧
        ¬ Contains (getRemoteIPHandler env .fresh r ps).w.body ("Port: " ++ s ++ "\n") ∧
        ¬ Contains (getRemoteIPHandler env .fresh r ps).w.body
          ("Forwarded for IP: " ++ s ++ "\n")) ∧
    (r.RemoteAddr = "not-a-valid-address" →
      (SplitHostPort r.RemoteAddr).2.2 ≠ none ∧
      Contains (getRemoteIPHandler env .fresh r ps).w.body "not-a-valid-address") := by
  have body_eq : (SplitHostPort r.RemoteAddr).2.2 ≠ none →
      (getRemoteIPHandler env .fresh r ps).w.body =
        "user IP address " ++ Quote env.isPrintTable r.RemoteAddr ++
          (" is not in the format IP:Port" ++ malformedMessage env r.RemoteAddr) := by
    intro hs
    rw [body_fresh_of_writes _ _ (writes_getip_no_split env .fresh r ps hs)]
    simp [malformedMessage, String.append_assoc]
  have quoted : (SplitHostPort r.RemoteAddr).2.2 ≠ none →
      Contains (getRemoteIPHandler env .fresh r ps).w.body
        (Quote env.isPrintTable r.RemoteAddr) := by
    intro hs
    rw [body_eq hs]
    exact contains_mid _ _ _
  have nonl : (SplitHostPort r.RemoteAddr).2.2 ≠ none →
      '\n' ∉ (getRemoteIPHandler env .fresh r ps).w.body.data := by
    intro hs
    have hm0 := malformedMessage_no_newline env r.RemoteAddr
    have hm := hm0
    rw [body_eq hs]
    unfold malformedMessage at hm
    simp only [String.data_append, List.mem_append, not_or] at hm ⊢
    exact ⟨hm.1, hm.2, hm0⟩
  have verbatim : (SplitHostPort r.RemoteAddr).2.2 ≠ none →
      (∀ c ∈ r.RemoteAddr.data, c ≠ dquote ∧ c ≠ '\\' ∧ IsPrint env.isPrintTable c = true) →
      Contains (getRemoteIPHandler env .fresh r ps).w.body r.RemoteAddr := by
    intro hs hc
    obtain ⟨a, b, hab⟩ := quoted hs
    rw [quote_plain _ _ hc] at hab
    exact ⟨a ++ "\"".data, "\"".data ++ b, by
      rw [← hab]; simp only [String.data_append, List.append_assoc]⟩
  refine ⟨fun hs => ⟨?_, ?_, quoted hs, verbatim hs, nonl hs,
    no_line_of_no_newline _ (nonl hs)⟩, ?_⟩
  · rw [body_eq hs]
    intro h
    have := congrArg String.data h
    simp [String.data_append] at this
  · rw [body_eq hs]
    exact ⟨(Quote env.isPrintTable r.RemoteAddr ++
      (" is not in the format IP:Port" ++ malformedMessage env r.RemoteAddr)).data, by
        simp only [String.data_append, List.append_assoc]⟩
  · intro haddr
    have hs : (SplitHostPort r.RemoteAddr).2.2 ≠ none := by rw [haddr]; decide
    have hplain : ∀ c ∈ r.RemoteAddr.data,
        c ≠ dquote ∧ c ≠ '\\' ∧ IsPrint env.isPrintTable c = true := ?_
    · have hv := verbatim hs hplain
      rw [haddr] at hv
      exact ⟨hs, hv⟩
    rw [haddr]
    intro c hc
    refine ⟨?_, ?_, ?_⟩
    · rintro rfl; revert hc; decide
    · rintro rfl; revert hc; decide
    · have hp : ∀ c ∈ "not-a-valid-address".data, 0x20 ≤ c.toNat ∧ c.toNat ≤ 0x7E := by decide
      have := hp c hc
      unfold IsPrint
      have h1 : c.toNat ≤ 0xFF := by omega
      simp [h1, this.1, this.2]

/-- Witness for C4: the remote address `not-a-valid-address`. -/
theorem getRemoteIPHandler_unsplit_body_witness :
    (SplitHostPort "not-a-valid-address").2.2 ≠ none ∧
    (getRemoteIPHandler sampleEnv .fresh (getipRequest "not-a-valid-address" []) []).w.body
      ≠ "" ∧
    Contains
      (getRemoteIPHandler sampleEnv .fresh (getipRequest "not-a-valid-address" []) []).w.body
      "not-a-valid-address" :=
  ⟨by decide,
    ((getRemoteIPHandler_unsplit_body sampleEnv
      (getipRequest "not-a-valid-address" []) []).1 (by decide)).1,
    ((getRemoteIPHandler_unsplit_body sampleEnv
      (getipRequest "not-a-valid-address" []) []).2 rfl).2⟩

/-- Claim C5.  For every request whose remote address is a valid `IP:port`:
when the header map holds `X-Forwarded-For` with first value `v`, whatever
`v` is, the last write of `getRemoteIPHandler` is the line
`"Forwarded for IP: " ++ v ++ "\n"` and the body contains it; when the header
is absent, the last write is exactly `"Forwarded for IP: \n"` and the body
ends with that line. -/
theorem getRemoteIPHandler_forwarded_line (env : Env) (r : Request) (ps : Params)
    (h p : String) (hsplit : SplitHostPort r.RemoteAddr = (h, p, none))
    (hip : ParseIP h ≠ none) :
    (∀ v vs, r.Header.lookup "X-Forwarded-For" = some (v :: vs) →
      (getRemoteIPHandler env .fresh r ps).w.writes.getLast? =
        some ("Forwarded for IP: " ++ v ++ "\n") ∧
      (getRemoteIPHandler env .fresh r ps).w.body =
        "IP: " ++ h ++ "\nPort: " ++ p ++ "\n" ++ ("Forwarded for IP: " ++ v ++ "\n") ∧
      Contains (getRemoteIPHandler env .fresh r ps).w.body
        ("Forwarded for IP: " ++ v ++ "\n")) ∧
    (r.Header.lookup "X-Forwarded-For" = none →
      (getRemoteIPHandler env .fresh r ps).w.writes.getLast? = some "Forwarded for IP: \n" ∧
      (getRemoteIPHandler env .fresh r ps).w.body =
        "IP: " ++ h ++ "\nPort: " ++ p ++ "\n" ++ "Forwarded for IP: \n") := by
  have hw := writes_getip_ok env .fresh r ps h p hsplit hip
  have hb : ∀ x, r.Header.Get "X-Forwarded-For" = x →
      (getRemoteIPHandler env .fresh r ps).w.writes.getLast? =
        some ("Forwarded for IP: " ++ x ++ "\n") ∧
      (getRemoteIPHandler env .fresh r ps).w.body =
        "IP: " ++ h ++ "\nPort: " ++ p ++ "\n" ++ ("Forwarded for IP: " ++ x ++ "\n") := by
    intro x hx
    constructor
    · rw [hw, hx]; simp [ResponseWriter.fresh]
    · rw [body_fresh_of_writes _ _ hw, hx]
      apply String.ext
      simp only [List.foldr_cons, List.foldr_nil, String.data_append, List.append_assoc]
      rfl
  constructor
  · intro v vs hv
    have hx : r.Header.Get "X-Forwarded-For" = v := by
      simp [Header.Get, canonical_forwarded, hv]
    refine ⟨(hb v hx).1, (hb v hx).2, ?_⟩
    rw [(hb v hx).2]
    exact contains_append_left _ _ _ ⟨[], [], by simp⟩
  · intro hv
    have hx : r.Header.Get "X-Forwarded-For" = "" := by
      simp [Header.Get, canonical_forwarded, hv]
    have := hb "" hx
    refine ⟨?_, ?_⟩
    · rw [this.1]; rfl
    · rw [this.2]; rfl

/-- Witness for C5: the spec's forwarding header on a valid remote address. -/
theorem getRemoteIPHandler_forwarded_line_witness :
    SplitHostPort "203.0.113.5:54321" = ("203.0.113.5", "54321", none) ∧
    ParseIP "203.0.113.5" ≠ none ∧
    Contains
      (getRemoteIPHandler sampleEnv .fresh
        (getipRequest "203.0.113.5:54321" [("X-Forwarded-For", ["198.51.100.7"])]) []).w.body
      ("Forwarded for IP: " ++ "198.51.100.7" ++ "\n") ∧
    (getRemoteIPHandler sampleEnv .fresh
      (getipRequest "203.0.113.5:54321" []) []).w.writes.getLast? =
      some "Forwarded for IP: \n" :=
  ⟨by decide, by decide,
    ((getRemoteIPHandler_forwarded_line sampleEnv
      (getipRequest "203.0.113.5:54321" [("X-Forwarded-For", ["198.51.100.7"])]) []
      "203.0.113.5" "54321" (by decide) (by decide)).1 "198.51.100.7" [] (by decide)).2.2,
    ((getRemoteIPHandler_forwarded_line sampleEnv (getipRequest "203.0.113.5:54321" []) []
      "203.0.113.5" "54321" (by decide) (by decide)).2 (by decide)).1⟩

/-! ## The route table -/

/-- Claim C9, as amended.  The registrations of `main` succeed and leave a
route table with exactly three (method, path) pairs, no pair twice: `GET /`
with `helloHandler`, `GET /getip` with `getRemoteIPHandler`, `GET /health`
with `healthCheckHandler`; a request for one of them is served by that
handler.  No other pair has a handle and a request for another pair runs no
handler; the router answers it by its defaults.  A method other than `GET` on
one of the three paths or on `*` gets the header `Allow: GET, OPTIONS`, with
status 405 unless the method is `OPTIONS`, and not-found on any other path.
A `GET` for another path (of ASCII characters) gets a redirect with status
301 to one of the three registered paths, or 405 when the path is `*`, or
not-found: `/health/` and `/HEALTH` are redirected to `/health`, `/nothing`
is not found. -/
theorem mainRouter_table :
    ∃ router, mainRouter = .ok router ∧
      router.routes = [("GET", "/"), ("GET", "/getip"), ("GET", "/health")] ∧
      router.routes.Nodup ∧
      router.Lookup "GET" "/" = some helloHandler ∧
      router.Lookup "GET" "/getip" = some getRemoteIPHandler ∧
      router.Lookup "GET" "/health" = some healthCheckHandler ∧
      (∀ method path, (router.Lookup method path).isSome = true ↔
        (method, path) ∈ [("GET", "/"), ("GET", "/getip"), ("GET", "/health")]) ∧
      (∀ env w req, req.Method = "GET" →
        (req.URL.Path = "/" →
          router.ServeHTTP env w req = .handled (helloHandler env w req [])) ∧
        (req.URL.Path = "/getip" →
          router.ServeHTTP env w req = .handled (getRemoteIPHandler env w req [])) ∧
        (req.URL.Path = "/health" →
          router.ServeHTTP env w req = .handled (healthCheckHandler env w req []))) ∧
      (∀ env w req, req.Method ≠ "GET" →
        router.ServeHTTP env w req =
          if req.URL.Path ∈ ["/", "/getip", "/health", "*"] then
            if req.Method = "OPTIONS" then .allow "GET, OPTIONS"
            else .methodNotAllowed "GET, OPTIONS"
          else .notFound) ∧
      (∀ env w req, req.Method = "GET" → req.URL.Path ∉ ["/", "/getip", "/health"] →
        (∀ c ∈ req.URL.Path.data, c.toNat < 128) →
        (∃ p ∈ ["/", "/getip", "/health"], router.ServeHTTP env w req = .redirect 301 p) ∨
        (req.URL.Path = "*" ∧
          router.ServeHTTP env w req = .methodNotAllowed "GET, OPTIONS") ∨
        router.ServeHTTP env w req = .notFound) ∧
      (∀ env w, router.ServeHTTP env w (requestFor "GET" "/health/") =
        .redirect 301 "/health") ∧
      (∀ env w, router.ServeHTTP env w (requestFor "GET" "/HEALTH") =
        .redirect 301 "/health") ∧
      (∀ env w, router.ServeHTTP env w (requestFor "GET" "/nothing") = .notFound) ∧
      (∀ env w, router.ServeHTTP env w (requestFor "OPTIONS" "/getip") =
        .allow "GET, OPTIONS") ∧
      (∀ env w, router.ServeHTTP env w (requestFor "HEAD" "/health") =
        .methodNotAllowed "GET, OPTIONS") := by
  refine ⟨builtRouter, mainRouter_eq, rfl, by decide, rfl, rfl, rfl, ?_, ?_, ?_, ?_,
    fun _ _ => rfl, fun _ _ => rfl, fun _ _ => rfl, fun _ _ => rfl, fun _ _ => rfl⟩
  · intro method path
    by_cases hm : method = "GET"
    · subst hm
      have h := lookup_mainTree_isSome path
      simp only [List.mem_cons, List.mem_singleton, List.not_mem_nil, or_false] at h
      simpa [Router.Lookup, Router.tree, builtRouter, List.lookup] using h
    · have b : (method == "GET") = false := by simpa using hm
      simp [Router.Lookup, Router.tree, builtRouter, List.lookup, b, hm]
  · intro env w req hm
    have hl : builtRouter.trees.lookup req.Method = some mainTree := by
      rw [hm]; rfl
    refine ⟨fun hp => ?_, fun hp => ?_, fun hp => ?_⟩ <;>
      (unfold Router.ServeHTTP Router.serveTree
       rw [hl, hp]
       rfl)
  · intro env w req hm
    unfold Router.ServeHTTP
    rw [serveTree_other env w req hm]
    exact serveDefault_other req hm
  · intro env w req hm hp _
    unfold Router.ServeHTTP
    rcases serveTree_get env w req hm hp with ⟨p, hp1, hs⟩ | hs
    · exact Or.inl ⟨p, hp1, by rw [hs]⟩
    · rw [hs]
      have hflags : builtRouter.HandleOPTIONS = true ∧
          builtRouter.HandleMethodNotAllowed = true := ⟨rfl, rfl⟩
      unfold Router.serveDefault
      rw [hflags.1, hflags.2, hm]
      by_cases hstar : req.URL.Path = "*"
      · refine Or.inr (Or.inl ⟨hstar, ?_⟩)
        rw [hstar]
        rfl
      · refine Or.inr (Or.inr ?_)
        simp [allowed_get _ hstar]

/-- Counterexample for C9 as stated.  `POST /` is not one of the three
registered pairs and has no handle, yet the router does not answer it with
not-found: the path has a handle under `GET`, so the answer is 405 with
`Allow: GET, OPTIONS`. -/
theorem mainRouter_post_root_not_notFound :
    (mainRouter.map fun router => (router.Lookup "POST" "/").isSome) = .ok false ∧
    (mainRouter.map fun router =>
      router.ServeHTTP sampleEnv .fresh (requestFor "POST" "/")) =
      .ok (.methodNotAllowed "GET, OPTIONS") ∧
    Served.methodNotAllowed "GET, OPTIONS" ≠ Served.notFound :=
  ⟨rfl, rfl, by decide⟩

/-- Witness for C9: the answer to `POST /`, a request for a method other than
`GET` on a registered path. -/
theorem mainRouter_table_witness :
    ∃ router, mainRouter = .ok router ∧
      router.ServeHTTP sampleEnv .fresh (requestFor "POST" "/") =
        .methodNotAllowed "GET, OPTIONS" := by
  obtain ⟨router, h, -, -, -, -, -, -, -, hother, -⟩ := mainRouter_table
  exact ⟨router, h, hother sampleEnv .fresh (requestFor "POST" "/") (by decide)⟩

/-! ## The lifecycle -/

/-- Claim C8.  For every sequence of events the process can go through from
the moment `main` waits for a signal: the exit status is 0 exactly when a
signal arrived and `srv.Shutdown` returned no error; it is 1 exactly when
`srv.ListenAndServe` returned an error other than `http.ErrServerClosed` or
`srv.Shutdown` returned an error; there is no other exit status; and a return
of `http.ErrServerClosed` from `srv.ListenAndServe` only ends the goroutine,
leaving the process running with its log untouched. -/
theorem main_exit_status (env : Env) (es : List Event) (q : Proc)
    (hrun : run env start es = some q) :
    (q.exit = some 0 ↔
      (∃ sig, Event.signal sig ∈ es) ∧ Event.shutdownReturns none ∈ es) ∧
    (q.exit = some 1 ↔
      (∃ e, e ≠ GoError.ErrServerClosed ∧ Event.listenReturns (some e) ∈ es) ∨
        (∃ e, Event.shutdownReturns (some e) ∈ es)) ∧
    (q.exit = none ∨ q.exit = some 0 ∨ q.exit = some 1) ∧
    (∀ p : Proc, p.exit = none → p.serve = .listening →
      step env p (.listenReturns (some GoError.ErrServerClosed)) =
        some { p with serve := .finished }) := by
  obtain ⟨h0, h1, h2, h3⟩ := run_exit env es start q rfl hrun
  refine ⟨?_, h1, h2, ?_⟩
  · rw [h0]
    constructor
    · intro h
      refine ⟨?_, h⟩
      rcases h3 ⟨none, h⟩ with hd | hs
      · exact absurd hd (by decide)
      · exact hs
    · exact fun h => h.2
  · intro p hp hs
    simp [step, hp, hs, afterListen]

/-- Witness for C8: a signal followed by a clean shutdown ends with status 0. -/
theorem main_exit_status_witness :
    run sampleEnv start [.signal .SIGTERM, .shutdownReturns none] =
      some (returnFromMain (log_Print (afterSignal start) "Server gracefully stopped")) ∧
    (returnFromMain (log_Print (afterSignal start) "Server gracefully stopped")).exit =
      some 0 :=
  ⟨rfl, ((main_exit_status sampleEnv [.signal .SIGTERM, .shutdownReturns none] _ rfl).1).mpr
    ⟨⟨.SIGTERM, by simp⟩, by simp⟩⟩

/-- Claim C7, as the code behaves.  After a signal, when `srv.Shutdown` returns
an error the process ends with status 1 through `log.Fatalf` while the
deferred call of `cancel` is still pending and `cancel` has never been called;
when `srv.Shutdown` returns no error, `main` returns, the deferred call runs
and `cancel` has been called once. -/
theorem main_shutdown_error_skips_cancel (env : Env) (sig : Signal) (e : GoError) :
    (∃ q, run env start [.signal sig, .shutdownReturns (some e)] = some q ∧
      q.exit = some 1 ∧ q.cancelCalls = 0 ∧ q.deferred = [Deferred.cancel]) ∧
    (∃ q, run env start [.signal sig, .shutdownReturns none] = some q ∧
      q.exit = some 0 ∧ q.cancelCalls = 1 ∧ q.deferred = []) :=
  ⟨⟨_, rfl, rfl, rfl, rfl⟩, ⟨_, rfl, rfl, rfl, rfl⟩⟩


end Server
